import Mathlib

/-!
# raspindi: the NDI output adapter (`src/ndi_output.cpp`)

A shallow embedding of `NdiOutput` (constructor, destructor and `outputBuffer`)
together with the C library routines its metadata dispatcher calls
(`strcasecmp`, `atoi`, `atof`, `sprintf`, `std::min`, `std::max`), followed by
theorems about the PTZ command forwarder.

C strings are lists of characters (the bytes before the terminating NUL).
Floating-point values are exact binary fractions, rounded explicitly to the
binary64 and binary32 grids where the program rounds.
-/

set_option maxRecDepth 20000

namespace Raspindi

/-! ## C strings and `<ctype.h>` in the "C" locale -/

/-- The bytes of a NUL-terminated C string, terminator excluded. -/
abbrev CString := List Char

/-- C `isspace`: space, `\t`, `\n`, `\v`, `\f`, `\r`. -/
def isspace (c : Char) : Bool :=
  c.toNat = 32 || (9 ≤ c.toNat && c.toNat ≤ 13)

/-- C `isdigit`. -/
def isdigit (c : Char) : Bool :=
  48 ≤ c.toNat && c.toNat ≤ 57

/-- C `tolower`: only `A`..`Z` change. -/
def tolower (c : Char) : Char :=
  if 65 ≤ c.toNat ∧ c.toNat ≤ 90 then Char.ofNat (c.toNat + 32) else c

/-- C `strcasecmp`: the difference of the first pair of characters that differ
after `tolower`, `0` when there is none. -/
def strcasecmp : CString → CString → Int
  | [], [] => 0
  | [], b :: _ => 0 - ((tolower b).toNat : Int)
  | a :: _, [] => ((tolower a).toNat : Int)
  | a :: as, b :: bs =>
    if tolower a = tolower b then strcasecmp as bs
    else ((tolower a).toNat : Int) - ((tolower b).toNat : Int)

/-- Leading white space is skipped by `strtol` and `strtod`. -/
def skipSpace : CString → CString
  | [] => []
  | c :: cs => if isspace c then skipSpace cs else c :: cs

/-- Value of a character as a digit (`0`..`9`, `a`..`f`, `A`..`F`). -/
def digitVal (c : Char) : Option Nat :=
  if 48 ≤ c.toNat ∧ c.toNat ≤ 57 then some (c.toNat - 48)
  else if 97 ≤ c.toNat ∧ c.toNat ≤ 102 then some (c.toNat - 87)
  else if 65 ≤ c.toNat ∧ c.toNat ≤ 70 then some (c.toNat - 55)
  else none

/-- Reads the longest run of digits of the given base: returns the accumulated
value, the number of digits read and the unread rest. -/
def scan (base : Nat) (acc n : Nat) : CString → Nat × Nat × CString
  | [] => (acc, n, [])
  | c :: cs =>
    match digitVal c with
    | some d => if d < base then scan base (acc * base + d) (n + 1) cs else (acc, n, c :: cs)
    | none => (acc, n, c :: cs)

/-- Splits an optional sign off: `true` for `-`. -/
def takeSign : CString → Bool × CString
  | '-' :: r => (true, r)
  | '+' :: r => (false, r)
  | r => (false, r)

/-! ## `atoi` -/

/-- Largest `long` (LP64). -/
def LONG_MAX : Int := 2 ^ 63 - 1

/-- Smallest `long` (LP64). -/
def LONG_MIN : Int := -(2 ^ 63)

/-- Largest `int`. -/
def INT_MAX : Int := 2 ^ 31 - 1

/-- Smallest `int`. -/
def INT_MIN : Int := -(2 ^ 31)

/-- C `strtol(s, NULL, 10)`: white space, an optional sign, decimal digits; the
result saturates at the `long` range; no digits give `0`. -/
def strtol (s : CString) : Int :=
  let t := takeSign (skipSpace s)
  let v : Int := ((scan 10 0 0 t.2).1 : Int)
  if t.1 then (if -v < LONG_MIN then LONG_MIN else -v)
  else (if LONG_MAX < v then LONG_MAX else v)

/-- Conversion of a `long` or `unsigned int` value to `int`: reduction modulo `2^32`
into the `int` range. -/
def toInt32 (v : Int) : Int :=
  (v + 2 ^ 31) % 2 ^ 32 - 2 ^ 31

/-- C `atoi`, which is `(int) strtol(s, NULL, 10)`. -/
def atoi (s : CString) : Int :=
  toInt32 (strtol s)

/-! ## Binary floating point -/

/-- An IEEE 754 value (binary64 or binary32): a NaN, an infinity, or the finite
number `(-1)^neg * m * 2^e`; a finite value with `m = 0` is a signed zero. -/
inductive Fp where
  | nan (neg : Bool)
  | inf (neg : Bool)
  | fin (neg : Bool) (m : Nat) (e : Int)
  deriving DecidableEq, Repr

/-- Auxiliary for `ilog2`, recursing on fuel. -/
def ilog2Aux : Nat → Nat → Nat
  | 0, _ => 0
  | f + 1, n => if n < 2 then 0 else ilog2Aux f (n / 2) + 1

/-- Floor of the binary logarithm of a positive number. -/
def ilog2 (n : Nat) : Nat := ilog2Aux n n

/-- Floor of the binary logarithm of the positive fraction `num / den`. -/
def floorLog2 (num den : Nat) : Int :=
  let e0 : Int := (ilog2 num : Int) - (ilog2 den : Int)
  if (if 0 ≤ e0 then den * 2 ^ e0.toNat ≤ num else den ≤ num * 2 ^ (-e0).toNat) then e0
  else e0 - 1

/-- The integer nearest to `n / d`, ties going to the even one. -/
def roundHalfEven (n d : Nat) : Nat :=
  let q := n / d
  let r := n % d
  if 2 * r < d then q
  else if d < 2 * r then q + 1
  else if q % 2 = 0 then q else q + 1

/-- Rounds the exact magnitude `num / den` to nearest, ties to even, in the binary
format with `p` significand bits and normal exponents `emin..emax`, subnormals
included; a result beyond the largest finite number is an infinity. -/
def roundTo (p : Nat) (emin emax : Int) (neg : Bool) (num den : Nat) : Fp :=
  if num = 0 then Fp.fin neg 0 0
  else
    let e := floorLog2 num den
    if emax < e then Fp.inf neg
    else
      let q : Int := max (e - ((p : Int) - 1)) (emin - ((p : Int) - 1))
      let m := if 0 ≤ q then roundHalfEven num (den * 2 ^ q.toNat)
               else roundHalfEven (num * 2 ^ (-q).toNat) den
      if emax < q + (ilog2 m : Int) then Fp.inf neg else Fp.fin neg m q

/-- Rounding to `double` (binary64). -/
def roundDouble (neg : Bool) (num den : Nat) : Fp :=
  roundTo 53 (-1022) 1023 neg num den

/-- The conversion `(float) x` of a `double`: rounding to binary32. -/
def toFloat : Fp → Fp
  | Fp.nan s => Fp.nan s
  | Fp.inf s => Fp.inf s
  | Fp.fin s m e =>
    if 0 ≤ e then roundTo 24 (-126) 127 s (m * 2 ^ e.toNat) 1
    else roundTo 24 (-126) 127 s m (2 ^ (-e).toNat)

/-- The comparison `a < b` of two floating-point values; false when either is a NaN. -/
def Fp.lt : Fp → Fp → Bool
  | Fp.nan _, _ => false
  | _, Fp.nan _ => false
  | Fp.inf s, Fp.inf t => s && !t
  | Fp.inf s, Fp.fin _ _ _ => s
  | Fp.fin _ _ _, Fp.inf t => !t
  | Fp.fin s m e, Fp.fin t n f =>
    let c := min e f
    let a : Int := (m : Int) * 2 ^ (e - c).toNat
    let b : Int := (n : Int) * 2 ^ (f - c).toNat
    decide ((if s then -a else a) < (if t then -b else b))

/-- The `float` overload of `std::min(a, b)`, which is `(b < a) ? b : a`. -/
def fmin (a b : Fp) : Fp := if Fp.lt b a then b else a

/-- The `float` overload of `std::max(a, b)`, which is `(a < b) ? b : a`. -/
def fmax (a b : Fp) : Fp := if Fp.lt a b then b else a

/-- The `int` overload of `std::min(a, b)`, which is `(b < a) ? b : a`. -/
def imin (a b : Int) : Int := if b < a then b else a

/-- The `int` overload of `std::max(a, b)`, which is `(a < b) ? b : a`. -/
def imax (a b : Int) : Int := if a < b then b else a

/-! ## `atof` -/

/-- Whether `s` starts with the lower-case word `w`, letter case of `s` ignored. -/
def startsWithCI : CString → CString → Bool
  | _, [] => true
  | [], _ :: _ => false
  | c :: cs, w :: ws => tolower c == w && startsWithCI cs ws

/-- The exponent part of a number: the marker (`e` or `p`), an optional sign and
decimal digits; `0` when there is no complete exponent part. -/
def scanExponent (marker : Char) : CString → Int
  | [] => 0
  | c :: r =>
    if tolower c = marker then
      let t := takeSign r
      let v : Int := ((scan 10 0 0 t.2).1 : Int)
      if t.1 then -v else v
    else 0

/-- Rounds `m * base^k` to `double`. -/
def scaled (neg : Bool) (base : Nat) (m : Nat) (k : Int) : Fp :=
  if 0 ≤ k then roundDouble neg (m * base ^ k.toNat) 1
  else roundDouble neg m (base ^ (-k).toNat)

/-- A digit sequence with an optional point and exponent, in base 10 or 16, after
the sign (and after `0x` for base 16); `none` when it holds no digit. -/
def strtodDigits (neg : Bool) (base : Nat) (s : CString) : Option Fp :=
  let i := scan base 0 0 s
  let f : Nat × Nat × CString :=
    match i.2.2 with
    | '.' :: r => scan base i.1 0 r
    | r => (i.1, 0, r)
  if i.2.1 + f.2.1 = 0 then none
  else if base = 16 then
    some (scaled neg 2 f.1 (scanExponent 'p' f.2.2 - 4 * (f.2.1 : Int)))
  else
    some (scaled neg 10 f.1 (scanExponent 'e' f.2.2 - (f.2.1 : Int)))

/-- C `strtod(s, NULL)`: white space, an optional sign, then `inf`, `nan`, a
hexadecimal or a decimal floating-point number, correctly rounded; `+0.0` when no
conversion can be performed. -/
def strtod (s : CString) : Fp :=
  let t := takeSign (skipSpace s)
  if startsWithCI t.2 ['i', 'n', 'f'] then Fp.inf t.1
  else if startsWithCI t.2 ['n', 'a', 'n'] then Fp.nan t.1
  else
    let hex : Option Fp :=
      if startsWithCI t.2 ['0', 'x'] then strtodDigits t.1 16 (t.2.drop 2) else none
    match hex with
    | some v => v
    | none =>
      match strtodDigits t.1 10 t.2 with
      | some v => v
      | none => Fp.fin false 0 0

/-- C `atof`, which is `strtod(s, NULL)`. -/
def atof (s : CString) : Fp := strtod s

/-! ## `sprintf` conversions -/

/-- The character of a decimal digit. -/
def digitChar (d : Nat) : Char := Char.ofNat (48 + d)

/-- Auxiliary for `natText`, recursing on fuel. -/
def natTextAux : Nat → Nat → CString → CString
  | 0, _, acc => acc
  | f + 1, n, acc =>
    if n < 10 then digitChar n :: acc
    else natTextAux f (n / 10) (digitChar (n % 10) :: acc)

/-- Decimal digits of a natural number, most significant first. -/
def natText (n : Nat) : CString := natTextAux (n + 1) n []

/-- The `%d` conversion. -/
def fmt_d (v : Int) : CString :=
  if v < 0 then '-' :: natText v.natAbs else natText v.natAbs

/-- Pads on the left with `c` up to `width` characters. -/
def padLeft (width : Nat) (c : Char) (s : CString) : CString :=
  List.replicate (width - s.length) c ++ s

/-- Sign prefix of a floating-point conversion. -/
def signText (neg : Bool) : CString := if neg then ['-'] else []

/-- The `%W.Pf` conversion (minimum field width `width`, precision `prec`) of a
`double`: the exact value rounded to `prec` decimals, ties to even. -/
def fmt_f (width prec : Nat) : Fp → CString
  | Fp.nan s => padLeft width ' ' (signText s ++ ['n', 'a', 'n'])
  | Fp.inf s => padLeft width ' ' (signText s ++ ['i', 'n', 'f'])
  | Fp.fin s m e =>
    let n := if 0 ≤ e then m * 2 ^ e.toNat * 10 ^ prec
             else roundHalfEven (m * 10 ^ prec) (2 ^ (-e).toNat)
    let frac := if prec = 0 then [] else '.' :: padLeft prec '0' (natText (n % 10 ^ prec))
    padLeft width ' ' (signText s ++ natText (n / 10 ^ prec) ++ frac)

/-! ## Parsed metadata

`rapidxml.hpp` is not among the sources. What `parser.parse<0>` and
`parser.first_node()` make of a payload is carried with each metadata frame. -/

/-- Node kinds of rapidxml (`rapidxml::node_type`). -/
inductive node_type where
  | node_document
  | node_element
  | node_data
  | node_cdata
  | node_comment
  | node_declaration
  | node_doctype
  | node_pi
  deriving DecidableEq, Repr

/-- An attribute of an element: name and value text. -/
structure xml_attribute where
  name : CString
  value : CString
  deriving DecidableEq, Repr

/-- A parsed node: kind, name and attributes in document order. -/
structure xml_node where
  type : node_type
  name : CString
  attributes : List xml_attribute
  deriving DecidableEq, Repr

/-- Modelled from the spec: `first_attribute(name)` of rapidxml, which is not among
the sources, is the first attribute of the node carrying exactly that name, or
null (§4.3, "Attributes read", "Missing attributes fall back to the listed
defaults"). -/
def xml_node.first_attribute (n : xml_node) (name : CString) : Option xml_attribute :=
  n.attributes.find? (fun a => decide (a.name = name))

/-- Outcome of `parser.parse<0>` followed by `parser.first_node()`: the parser
throws, or the document has a first node or none (null). -/
inductive xml_document where
  | parse_error
  | parsed (first_node : Option xml_node)
  deriving DecidableEq, Repr

/-- An inbound metadata frame (`NDIlib_metadata_frame_t`): the payload text and what
the parser makes of it. -/
structure NDIlib_metadata_frame_t where
  p_data : CString
  xml : xml_document
  deriving DecidableEq, Repr

/-! ## The adapter -/

/-- Pixel formats of the frame descriptor (`NDIlib_FourCC_video_type_e`): the
SDK's initial value and the one the adapter sets. -/
inductive NDIlib_FourCC_video_type_e where
  | NDIlib_FourCC_type_UYVY
  | NDIlib_FourCC_type_I420
  deriving DecidableEq, Repr

/-- The fields of `NDIlib_video_frame_v2_t` the adapter writes; `p_data` is an
address. -/
structure NDIlib_video_frame_v2_t where
  xres : Int
  yres : Int
  FourCC : NDIlib_FourCC_video_type_e
  line_stride_in_bytes : Int
  p_data : Nat
  deriving DecidableEq, Repr

/-- Destination of the command datagrams (`struct sockaddr_in`). -/
structure sockaddr_in where
  sin_addr : String
  sin_port : Nat
  deriving DecidableEq, Repr

/-- The host's `VideoOptions`, declared outside the sources: the adapter reads its
`unsigned int` members `width` and `height`. -/
structure VideoOptions where
  width : Nat
  height : Nat
  deriving DecidableEq, Repr

/-- The members of `NdiOutput`. -/
structure NdiOutput where
  udpsocket : Int
  dst : sockaddr_in
  pNDI_send : Nat
  NDI_video_frame : NDIlib_video_frame_v2_t
  deriving DecidableEq, Repr

/-- Calls the adapter makes on the transport library, the socket layer and the
process, in program order. -/
inductive Event where
  | send_create (p_ndi_name : String) (result : Nat)
  | add_connection_metadata (pNDI_send : Nat) (p_data : String)
  | socket (result : Int)
  | cerr (line : String)
  | exit (status : Int)
  | send_video (pNDI_send : Nat) (frame : NDIlib_video_frame_v2_t)
  | send_capture (pNDI_send : Nat) (timeout_in_ms : Nat)
      (metadata : Option NDIlib_metadata_frame_t)
  | send_free_metadata (pNDI_send : Nat) (metadata : NDIlib_metadata_frame_t)
  | sendto (fd : Int) (payload : CString) (dst : sockaddr_in)
  | send_destroy (pNDI_send : Nat)
  | close (fd : Int)
  deriving DecidableEq, Repr

/-- The constructor `NdiOutput::NdiOutput`. `sender` is what `NDIlib_send_create`
returns (`0` is null) and `fd` what `socket` returns. The assignments of the
`unsigned int` options to the `int` members of the frame descriptor convert. The
result is the calls made and the constructed object, `none` when the process exits
instead. -/
def NdiOutput.create (options : VideoOptions) (sender : Nat) (fd : Int) :
    List Event × Option NdiOutput :=
  if sender = 0 then
    ([Event.send_create "Video Feed" sender, Event.cerr "Failed to create NDI Send",
      Event.exit 1], none)
  else
    let frame : NDIlib_video_frame_v2_t :=
      { xres := toInt32 (options.width : Int)
        yres := toInt32 (options.height : Int)
        FourCC := NDIlib_FourCC_video_type_e.NDIlib_FourCC_type_I420
        line_stride_in_bytes := toInt32 (options.width : Int)
        p_data := 0 }
    let pre : List Event :=
      [Event.send_create "Video Feed" sender,
       Event.add_connection_metadata sender
         "<ndi_capabilities ntk_ptz=\"true\" ntk_exposure_v2=\"false\"/>",
       Event.socket fd]
    if fd < 0 then
      (pre ++ [Event.cerr "Failed to create UDP socket", Event.exit 1], none)
    else
      (pre, some
        { udpsocket := fd
          dst := { sin_addr := "127.0.0.1", sin_port := 60504 }
          pNDI_send := sender
          NDI_video_frame := frame })

/-- The destructor `NdiOutput::~NdiOutput`: the calls it makes. -/
def NdiOutput.destroy (self : NdiOutput) : List Event :=
  [Event.close self.udpsocket]

/-- The literal `0.0f`. -/
def zerof : Fp := Fp.fin false 0 0

/-- The literal `1.0f`. -/
def onef : Fp := Fp.fin false 1 0

/-- The literal `-1.0f`. -/
def negonef : Fp := Fp.fin true 1 0

/-- The verb dispatch of `outputBuffer` (the `if` / `else if` chain on
`p_node->name()`) for a non-null `p_node`: the calls it makes. -/
def dispatch (self : NdiOutput) (p_node : xml_node) : List Event :=
  if strcasecmp p_node.name "ntk_ptz_pan_tilt_speed".toList = 0 then
    let p_pan_speed := p_node.first_attribute "pan_speed".toList
    let p_tilt_speed := p_node.first_attribute "tilt_speed".toList
    let pan_speed : Fp :=
      match p_pan_speed with
      | some a => toFloat (atof a.value)
      | none => zerof
    let tilt_speed : Fp :=
      match p_tilt_speed with
      | some a => toFloat (atof a.value)
      | none => zerof
    let buffer : CString :=
      "PT:".toList ++ fmt_f 0 3 (fmax negonef (fmin onef pan_speed)) ++ ":".toList
        ++ fmt_f 0 3 (fmax negonef (fmin onef tilt_speed))
    let n := buffer.length
    [Event.sendto self.udpsocket (buffer.take n) self.dst]
  else if strcasecmp p_node.name "ntk_ptz_store_preset".toList = 0 then
    let p_index := p_node.first_attribute "index".toList
    let index : Int :=
      match p_index with
      | some a => atoi a.value
      | none => 0
    let buffer : CString := "SP:".toList ++ fmt_d (imax 0 (imin 99 index))
    let n := buffer.length
    [Event.sendto self.udpsocket (buffer.take n) self.dst]
  else if strcasecmp p_node.name "ntk_ptz_recall_preset".toList = 0 then
    let p_index := p_node.first_attribute "index".toList
    let p_speed := p_node.first_attribute "speed".toList
    let index : Int :=
      match p_index with
      | some a => atoi a.value
      | none => 0
    let speed : Fp :=
      match p_speed with
      | some a => toFloat (atof a.value)
      | none => onef
    let buffer : CString :=
      "RP:".toList ++ fmt_d (imax 0 (imin 99 index)) ++ ":".toList
        ++ fmt_f 1 2 (fmax zerof (fmin onef speed))
    let n := buffer.length
    [Event.sendto self.udpsocket (buffer.take n) self.dst]
  else []

/-- What a piece of `outputBuffer` did: the calls made, and whether control reached
its end. `completed = false` records that a null `p_node` was dereferenced
(`p_node->name()`), which no `catch` intercepts. -/
structure Run where
  events : List Event
  completed : Bool
  deriving DecidableEq, Repr

/-- One iteration of the drain loop of `outputBuffer` for a captured metadata
frame: the `try` block and the release that follows it. -/
def handle (self : NdiOutput) (metadata_cmd : NDIlib_metadata_frame_t) : Run :=
  match metadata_cmd.xml with
  | xml_document.parse_error =>
    { events := [Event.send_free_metadata self.pNDI_send metadata_cmd], completed := true }
  | xml_document.parsed none =>
    { events := [], completed := false }
  | xml_document.parsed (some p_node) =>
    { events := dispatch self p_node ++ [Event.send_free_metadata self.pNDI_send metadata_cmd]
      completed := true }

/-- The drain loop of `outputBuffer` over the metadata frames the transport holds:
each `NDIlib_send_capture` with timeout `0` yields the next frame, and the loop
ends when none is left. -/
def drain (self : NdiOutput) : List NDIlib_metadata_frame_t → Run
  | [] => { events := [Event.send_capture self.pNDI_send 0 none], completed := true }
  | f :: rest =>
    let r := handle self f
    if r.completed then
      let d := drain self rest
      { events := Event.send_capture self.pNDI_send 0 (some f) :: (r.events ++ d.events)
        completed := d.completed }
    else
      { events := Event.send_capture self.pNDI_send 0 (some f) :: r.events
        completed := false }

/-- The method `NdiOutput::outputBuffer`, called with the pixel memory at address
`mem` while the transport holds `inbound`: the object afterwards and the run.
`size`, `timestamp_us` and `flags` are not used by the body. -/
def NdiOutput.outputBuffer (self : NdiOutput) (mem : Nat)
    (inbound : List NDIlib_metadata_frame_t) : NdiOutput × Run :=
  let self1 : NdiOutput :=
    { self with NDI_video_frame := { self.NDI_video_frame with p_data := mem } }
  let d := drain self1 inbound
  (self1,
   { events := Event.send_video self1.pNDI_send self1.NDI_video_frame :: d.events
     completed := d.completed })

/-- The payloads of the datagrams sent, in order. -/
def datagrams : List Event → List CString
  | [] => []
  | Event.sendto _ payload _ :: es => payload :: datagrams es
  | _ :: es => datagrams es

/-- The metadata frames released to the transport, in order. -/
def released : List Event → List NDIlib_metadata_frame_t
  | [] => []
  | Event.send_free_metadata _ f :: es => f :: released es
  | _ :: es => released es

/-- The metadata frames the polls returned, in order. -/
def captured : List Event → List NDIlib_metadata_frame_t
  | [] => []
  | Event.send_capture _ _ (some f) :: es => f :: captured es
  | _ :: es => captured es

/-- The video frames submitted, in order. -/
def submitted : List Event → List NDIlib_video_frame_v2_t
  | [] => []
  | Event.send_video _ frame :: es => frame :: submitted es
  | _ :: es => submitted es

/-! ## Auxiliary readings of the program -/

/-- The `float` an attribute is read as: `p ? (float) atof(p->value()) : dflt`. -/
def floatAttr (n : xml_node) (name : CString) (dflt : Fp) : Fp :=
  match n.first_attribute name with
  | some a => toFloat (atof a.value)
  | none => dflt

/-- The `int` an attribute is read as: `p ? atoi(p->value()) : dflt`. -/
def intAttr (n : xml_node) (name : CString) (dflt : Int) : Int :=
  match n.first_attribute name with
  | some a => atoi a.value
  | none => dflt

/-- The adapter after a sequence of earlier `outputBuffer` calls, each given by its
pixel address and the frames the transport held. -/
def afterCalls (self : NdiOutput) (calls : List (Nat × List NDIlib_metadata_frame_t)) :
    NdiOutput :=
  calls.foldl (fun s c => (s.outputBuffer c.1 c.2).1) self

/-! ## Notions of the specification -/

/-- Equality of two texts when letter case is ignored. -/
def eqIgnoreCase (a b : CString) : Prop :=
  a.map Char.toLower = b.map Char.toLower

instance (a b : CString) : Decidable (eqIgnoreCase a b) := by
  unfold eqIgnoreCase
  infer_instance

/-- The rational number a finite floating-point value stands for (`0` for the
others). -/
def Fp.toRat : Fp → ℚ
  | Fp.fin s m e => (if s then -1 else 1) * (m : ℚ) * (2 : ℚ) ^ e
  | _ => 0

/-- Whether the value is a finite number. -/
def Fp.isFinite : Fp → Bool
  | Fp.fin _ _ _ => true
  | _ => false

/-- Whether the value is a NaN. -/
def Fp.isNaN : Fp → Bool
  | Fp.nan _ => true
  | _ => false

/-- The statement that `x` is the number `p` limited to the interval `[lo, hi]`:
`clamp(p, lo, hi)` of the specification, for a finite or infinite `p`. -/
def IsClamp (lo hi : ℚ) (p x : Fp) : Prop :=
  x.isFinite = true ∧
  match p with
  | Fp.nan _ => False
  | Fp.inf neg => x.toRat = if neg then lo else hi
  | Fp.fin s m e => x.toRat = max lo (min hi (Fp.fin s m e).toRat)

/-- The number a run of decimal digits denotes. -/
def digitsValue (s : CString) : Nat :=
  s.foldl (fun acc c => acc * 10 + (c.toNat - 48)) 0

/-- The statement that the text `t` is a numeral with exactly `d` fractional digits
for the number `v`: an optional minus sign (never on a positive `v`, always on a
negative one), at least one digit, a point and `d` digits, denoting a multiple of
`10^-d` nearest to `|v|`. -/
def IsNumeralOf (d : Nat) (v : ℚ) (t : CString) : Prop :=
  ∃ (neg : Bool) (ip fp : CString),
    t = signText neg ++ ip ++ '.' :: fp ∧ ip ≠ [] ∧ (∀ c ∈ ip, isdigit c = true) ∧
      fp.length = d ∧ (∀ c ∈ fp, isdigit c = true) ∧
      (neg = true → v ≤ 0) ∧ (neg = false → 0 ≤ v) ∧
      |(|v| - ((digitsValue ip : ℚ) + (digitsValue fp : ℚ) / 10 ^ d))| ≤ 1 / (2 * 10 ^ d)

/-- The text an attribute's value is read from according to §4.3: its own text when
the node carries the attribute, the text of the listed default otherwise. -/
def attrText (n : xml_node) (name dflt : CString) : CString :=
  match n.first_attribute name with
  | some a => a.value
  | none => dflt

/-- The node with the value of every attribute called `name` set to `value`. -/
def xml_node.withValue (n : xml_node) (name value : CString) : xml_node :=
  { n with
    attributes :=
      n.attributes.map (fun a => if a.name = name then { a with value := value } else a) }

/-- Whether a text starts with a decimal digit. -/
def startsWithDigit : CString → Bool
  | c :: _ => isdigit c
  | [] => false

/-- Whether a text starts with a point followed by a decimal digit. -/
def startsWithPointDigit : CString → Bool
  | '.' :: c :: _ => isdigit c
  | _ => false

/-- Whether a text starts with an integer: white space and an optional sign, then a
decimal digit. -/
def holdsInteger (s : CString) : Bool :=
  startsWithDigit (takeSign (skipSpace s)).2

/-- Whether a text starts with a floating-point number: white space and an optional
sign, then a digit, a point and a digit, `inf` or `nan` (in any letter case). -/
def holdsNumber (s : CString) : Bool :=
  startsWithDigit (takeSign (skipSpace s)).2
    || startsWithPointDigit (takeSign (skipSpace s)).2
    || startsWithCI (takeSign (skipSpace s)).2 ['i', 'n', 'f']
    || startsWithCI (takeSign (skipSpace s)).2 ['n', 'a', 'n']

/-- Whether an attribute text holds no number of the kind the attribute is read as:
`index` is read as an integer, the speed attributes as floating-point numbers. -/
def notNumeric (name : CString) (text : CString) : Prop :=
  (name = "index".toList ∧ holdsInteger text = false)
    ∨ ((name = "pan_speed".toList ∨ name = "tilt_speed".toList ∨ name = "speed".toList)
        ∧ holdsNumber text = false)

/-- A frame the dispatcher has no command for: the parser rejects the payload, or
the first node's name (a C string, so free of NUL) is none of the three verbs, letter
case ignored. -/
def rejectedOrUnknown (f : NDIlib_metadata_frame_t) : Prop :=
  f.xml = xml_document.parse_error ∨
    ∃ n : xml_node, f.xml = xml_document.parsed (some n) ∧ (∀ c ∈ n.name, c.toNat ≠ 0) ∧
      ¬ eqIgnoreCase n.name "ntk_ptz_pan_tilt_speed".toList ∧
      ¬ eqIgnoreCase n.name "ntk_ptz_store_preset".toList ∧
      ¬ eqIgnoreCase n.name "ntk_ptz_recall_preset".toList

/-! ## Sample inputs (scenarios of §8) -/

/-- An adapter as constructed for 1920x1080 with sender handle 7 and socket 3. -/
def sampleOutput : NdiOutput :=
  { udpsocket := 3
    dst := { sin_addr := "127.0.0.1", sin_port := 60504 }
    pNDI_send := 7
    NDI_video_frame :=
      { xres := 1920
        yres := 1080
        FourCC := NDIlib_FourCC_video_type_e.NDIlib_FourCC_type_I420
        line_stride_in_bytes := 1920
        p_data := 0 } }

/-- A metadata frame whose payload is one element with the given attributes. -/
def elementFrame (payload name : String) (attrs : List (String × String)) :
    NDIlib_metadata_frame_t :=
  { p_data := payload.toList
    xml := xml_document.parsed (some
      { type := node_type.node_element
        name := name.toList
        attributes := attrs.map (fun a => { name := a.1.toList, value := a.2.toList }) }) }

/-- A metadata frame with an empty payload: the parse succeeds and the document has
no node. -/
def emptyFrame : NDIlib_metadata_frame_t :=
  { p_data := [], xml := xml_document.parsed none }

/-- The frame of scenario S5, which the parser rejects. -/
def garbageFrame : NDIlib_metadata_frame_t :=
  { p_data := "<garbage".toList, xml := xml_document.parse_error }

/-- The frame of scenario S2. -/
def panTiltFrame : NDIlib_metadata_frame_t :=
  elementFrame "<ntk_ptz_pan_tilt_speed pan_speed=\"0.25\" tilt_speed=\"-2.0\"/>"
    "ntk_ptz_pan_tilt_speed" [("pan_speed", "0.25"), ("tilt_speed", "-2.0")]

/-- The frame of scenario S3. -/
def storePresetFrame : NDIlib_metadata_frame_t :=
  elementFrame "<ntk_ptz_store_preset index=\"150\"/>" "ntk_ptz_store_preset" [("index", "150")]

/-- The frame of scenario S4. -/
def recallPresetFrame : NDIlib_metadata_frame_t :=
  elementFrame "<ntk_ptz_recall_preset index=\"7\" speed=\"0.5\"/>"
    "ntk_ptz_recall_preset" [("index", "7"), ("speed", "0.5")]

/-- The frame of scenario S6. -/
def unknownVerbFrame : NDIlib_metadata_frame_t :=
  elementFrame "<UnknownVerb/>" "UnknownVerb" []

/-- An attribute-less element of the given name. -/
def bareFrame (name : String) : NDIlib_metadata_frame_t :=
  elementFrame ("<" ++ name ++ "/>") name []

/-! ## The conversions on known values -/

theorem ilog2Aux_spec : ∀ (f n : Nat), 0 < n → n < 2 ^ f →
    2 ^ ilog2Aux f n ≤ n ∧ n < 2 ^ (ilog2Aux f n + 1)
  | 0, n, h0, h => by
    simp at h
    omega
  | f + 1, n, h0, h => by
    simp only [ilog2Aux]
    split
    · simp
      omega
    · have ih := ilog2Aux_spec f (n / 2) (by omega) (by rw [pow_succ] at h; omega)
      rw [pow_succ, pow_succ]
      omega

/-- The fuel of `ilog2` suffices: `ilog2 n` is the floor of the binary logarithm. -/
theorem ilog2_spec (n : Nat) (h : 0 < n) : 2 ^ ilog2 n ≤ n ∧ n < 2 ^ (ilog2 n + 1) :=
  ilog2Aux_spec n n h (Nat.lt_two_pow n)

/-- The conversions at values whose IEEE 754 encodings are well known: `0.1` as a
`double` is `0x1.999999999999ap-4` and as a `float` `0x1.99999ap-4`; `1e39` exceeds
the `float` range; `-0` keeps its sign; `%.3f` rounds the tie `0.0625` to even. -/
theorem conversion_examples :
    atof "0.1".toList = Fp.fin false 0x1999999999999a (-56) ∧
    toFloat (atof "0.1".toList) = Fp.fin false 0xcccccd (-27) ∧
    atof "0x1.8p1".toList = Fp.fin false 0x18000000000000 (-51) ∧
    toFloat (atof "1e39".toList) = Fp.inf false ∧
    toFloat (atof " -0".toList) = Fp.fin true 0 0 ∧
    atof "-Infinity".toList = Fp.inf true ∧
    fmt_f 0 3 (toFloat (atof "0.0625".toList)) = "0.062".toList ∧
    fmt_f 0 3 (toFloat (atof "-0.0001".toList)) = "-0.000".toList ∧
    atoi " -12abc".toList = -12 ∧
    strcasecmp "NTK_PTZ_Store_Preset".toList "ntk_ptz_store_preset".toList = 0 := by
  refine ⟨?_, ?_, ?_, ?_, ?_, ?_, ?_, ?_, ?_, ?_⟩ <;> rfl

/-! ## Letter case -/

theorem tolower_eq_toLower (c : Char) : tolower c = c.toLower := by
  simp [tolower, Char.toLower]

theorem toNat_ofNat_small (n : Nat) (h : n < 0xd800) : (Char.ofNat n).toNat = n := by
  have hv : n.isValidChar := Or.inl h
  simp [Char.ofNat, hv, Char.toNat, Char.ofNatAux, UInt32.toNat]

theorem toNat_injective (a b : Char) (h : a.toNat = b.toNat) : a = b := by
  rw [← Char.ofNat_toNat a, ← Char.ofNat_toNat b, h]

theorem tolower_toNat_ne_zero (c : Char) (h : c.toNat ≠ 0) : (tolower c).toNat ≠ 0 := by
  unfold tolower
  split
  · rw [toNat_ofNat_small _ (by omega)]
    omega
  · exact h

theorem strcasecmp_eq_zero_of_eqIgnoreCase :
    ∀ a b : CString, eqIgnoreCase a b → strcasecmp a b = 0
  | [], [], _ => rfl
  | [], _ :: _, h => by simp [eqIgnoreCase] at h
  | _ :: _, [], h => by simp [eqIgnoreCase] at h
  | a :: as, b :: bs, h => by
    simp only [eqIgnoreCase, List.map_cons, List.cons.injEq] at h
    simp only [strcasecmp, tolower_eq_toLower, h.1, if_true]
    exact strcasecmp_eq_zero_of_eqIgnoreCase as bs h.2

theorem strcasecmp_ne_zero_of_not_eqIgnoreCase :
    ∀ a b : CString, (∀ c ∈ a, c.toNat ≠ 0) → (∀ c ∈ b, c.toNat ≠ 0) →
      ¬ eqIgnoreCase a b → strcasecmp a b ≠ 0
  | [], [], _, _, h => by simp [eqIgnoreCase] at h
  | [], b :: _, _, hb, _ => by
    have := tolower_toNat_ne_zero b (hb b (by simp))
    simp only [strcasecmp]
    omega
  | a :: _, [], ha, _, _ => by
    have := tolower_toNat_ne_zero a (ha a (by simp))
    simp only [strcasecmp]
    omega
  | a :: as, b :: bs, ha, hb, h => by
    simp only [strcasecmp]
    split
    · rename_i hab
      apply strcasecmp_ne_zero_of_not_eqIgnoreCase as bs
        (fun c hc => ha c (by simp [hc])) (fun c hc => hb c (by simp [hc]))
      intro hr
      apply h
      simp only [eqIgnoreCase, List.map_cons, List.cons.injEq]
      exact ⟨by rw [← tolower_eq_toLower, ← tolower_eq_toLower, hab], hr⟩
    · rename_i hab
      intro hz
      apply hab
      apply toNat_injective
      omega

/-! ## Decimal text -/

theorem natTextAux_append : ∀ (f n : Nat) (acc : CString),
    natTextAux f n acc = natTextAux f n [] ++ acc
  | 0, _, _ => by simp [natTextAux]
  | f + 1, n, acc => by
    simp only [natTextAux]
    split
    · simp
    · rw [natTextAux_append f (n / 10) (digitChar (n % 10) :: acc),
        natTextAux_append f (n / 10) [digitChar (n % 10)]]
      simp

theorem natTextAux_fuel : ∀ (f g n : Nat) (acc : CString), n < f → n < g →
    natTextAux f n acc = natTextAux g n acc
  | 0, _, _, _, h, _ => by omega
  | _ + 1, 0, _, _, _, h => by omega
  | f + 1, g + 1, n, acc, hf, hg => by
    simp only [natTextAux]
    split
    · rfl
    · exact natTextAux_fuel f g (n / 10) _ (by omega) (by omega)

theorem natText_lt_ten (n : Nat) (h : n < 10) : natText n = [digitChar n] := by
  simp [natText, natTextAux, h]

theorem natText_ge_ten (n : Nat) (h : 10 ≤ n) :
    natText n = natText (n / 10) ++ [digitChar (n % 10)] := by
  have h1 : ¬ n < 10 := by omega
  have h2 : natText n = natTextAux n (n / 10) [digitChar (n % 10)] := by
    simp only [natText, natTextAux, h1, if_false]
  rw [h2, natTextAux_append, natTextAux_fuel n (n / 10 + 1) (n / 10) [] (by omega) (by omega)]
  rfl

theorem digitChar_toNat (d : Nat) (h : d < 10) : (digitChar d).toNat = 48 + d := by
  unfold digitChar
  exact toNat_ofNat_small _ (by omega)

theorem isdigit_digitChar (d : Nat) (h : d < 10) : isdigit (digitChar d) = true := by
  simp only [isdigit, digitChar_toNat d h, Bool.and_eq_true, decide_eq_true_eq]
  omega

theorem digitVal_digitChar (d : Nat) (h : d < 10) : digitVal (digitChar d) = some d := by
  have h1 : 48 ≤ 48 + d ∧ 48 + d ≤ 57 := by omega
  simp only [digitVal, digitChar_toNat d h, h1, and_self, if_true]
  congr 1
  omega

theorem natText_digits (n : Nat) : ∀ c ∈ natText n, isdigit c = true := by
  induction n using Nat.strong_induction_on with
  | _ n ih =>
    by_cases h : n < 10
    · rw [natText_lt_ten n h]
      intro c hc
      simp only [List.mem_singleton] at hc
      rw [hc]
      exact isdigit_digitChar n h
    · rw [natText_ge_ten n (by omega)]
      intro c hc
      simp only [List.mem_append, List.mem_singleton] at hc
      rcases hc with hc | hc
      · exact ih (n / 10) (by omega) c hc
      · rw [hc]
        exact isdigit_digitChar _ (Nat.mod_lt _ (by decide))

theorem natText_ne_nil (n : Nat) : natText n ≠ [] := by
  by_cases h : n < 10
  · rw [natText_lt_ten n h]; simp
  · rw [natText_ge_ten n (by omega)]; simp

theorem natText_length_le (k : Nat) :
    ∀ n : Nat, n < 10 ^ (k + 1) → (natText n).length ≤ k + 1 := by
  induction k with
  | zero =>
    intro n hn
    rw [natText_lt_ten n (by simpa using hn)]
    simp
  | succ k ih =>
    intro n hn
    by_cases h : n < 10
    · rw [natText_lt_ten n h]; simp
    · rw [natText_ge_ten n (by omega)]
      have : n / 10 < 10 ^ (k + 1) := by
        rw [Nat.div_lt_iff_lt_mul (by decide)]
        rw [pow_succ] at hn
        exact hn
      have := ih (n / 10) this
      simp only [List.length_append, List.length_singleton]
      omega

theorem scan_natText (n : Nat) : ∀ (acc cnt : Nat) (rest : CString),
    scan 10 acc cnt (natText n ++ rest)
      = scan 10 (acc * 10 ^ (natText n).length + n) (cnt + (natText n).length) rest := by
  induction n using Nat.strong_induction_on with
  | _ n ih =>
    intro acc cnt rest
    by_cases h : n < 10
    · rw [natText_lt_ten n h]
      simp [scan, digitVal_digitChar n h, h]
    · rw [natText_ge_ten n (by omega)]
      rw [List.append_assoc, ih (n / 10) (by omega)]
      have hd : n % 10 < 10 := Nat.mod_lt _ (by decide)
      simp only [List.singleton_append, scan, digitVal_digitChar _ hd, hd, if_true,
        List.length_append, List.length_singleton]
      congr 1
      · rw [pow_succ]
        have := Nat.div_add_mod n 10
        ring_nf
        ring_nf at this
        omega

theorem scan_natText_value (n : Nat) : (scan 10 0 0 (natText n)).1 = n := by
  have := scan_natText n 0 0 []
  simp only [List.append_nil] at this
  rw [this]
  simp [scan]

/-! ## Floating-point comparison and clamping -/

theorem Fp.toRat_fin_scaled (s : Bool) (m : Nat) (e c : Int) (h : c ≤ e) :
    (Fp.fin s m e).toRat
      = (((if s then -((m : Int) * 2 ^ (e - c).toNat)
            else (m : Int) * 2 ^ (e - c).toNat : Int)) : ℚ)
        * (2 : ℚ) ^ c := by
  have h2 : (2 : ℚ) ^ e = (2 : ℚ) ^ ((e - c).toNat) * (2 : ℚ) ^ c := by
    rw [← zpow_natCast, ← zpow_add₀ (by norm_num)]
    congr 1
    rw [Int.toNat_of_nonneg (by omega)]
    omega
  cases s
  · simp only [Fp.toRat, h2]
    push_cast
    simp
    ring
  · simp only [Fp.toRat, h2]
    push_cast
    simp
    ring

theorem Fp.lt_fin_iff (s : Bool) (m : Nat) (e : Int) (t : Bool) (n : Nat) (f : Int) :
    Fp.lt (Fp.fin s m e) (Fp.fin t n f) = true
      ↔ (Fp.fin s m e).toRat < (Fp.fin t n f).toRat := by
  have hpos : (0 : ℚ) < (2 : ℚ) ^ (min e f) := zpow_pos (by norm_num) _
  rw [Fp.toRat_fin_scaled s m e (min e f) (min_le_left _ _),
    Fp.toRat_fin_scaled t n f (min e f) (min_le_right _ _),
    mul_lt_mul_right hpos, Int.cast_lt]
  simp [Fp.lt]

theorem fmin_fin (s : Bool) (m : Nat) (e : Int) (t : Bool) (n : Nat) (f : Int) :
    (fmin (Fp.fin s m e) (Fp.fin t n f)).isFinite = true ∧
      (fmin (Fp.fin s m e) (Fp.fin t n f)).toRat
        = min (Fp.fin s m e).toRat (Fp.fin t n f).toRat := by
  unfold fmin
  by_cases h : Fp.lt (Fp.fin t n f) (Fp.fin s m e) = true
  · rw [if_pos h]
    rw [Fp.lt_fin_iff] at h
    exact ⟨rfl, (min_eq_right (le_of_lt h)).symm⟩
  · rw [if_neg h]
    rw [Fp.lt_fin_iff, not_lt] at h
    exact ⟨rfl, (min_eq_left h).symm⟩

theorem fmax_fin (s : Bool) (m : Nat) (e : Int) (t : Bool) (n : Nat) (f : Int) :
    (fmax (Fp.fin s m e) (Fp.fin t n f)).isFinite = true ∧
      (fmax (Fp.fin s m e) (Fp.fin t n f)).toRat
        = max (Fp.fin s m e).toRat (Fp.fin t n f).toRat := by
  unfold fmax
  by_cases h : Fp.lt (Fp.fin s m e) (Fp.fin t n f) = true
  · rw [if_pos h]
    rw [Fp.lt_fin_iff] at h
    exact ⟨rfl, (max_eq_right (le_of_lt h)).symm⟩
  · rw [if_neg h]
    rw [Fp.lt_fin_iff, not_lt] at h
    exact ⟨rfl, (max_eq_left h).symm⟩

theorem isFinite_cases (x : Fp) (h : x.isFinite = true) : ∃ s m e, x = Fp.fin s m e := by
  cases x with
  | nan s => simp [Fp.isFinite] at h
  | inf s => simp [Fp.isFinite] at h
  | fin s m e => exact ⟨s, m, e, rfl⟩

/-- `std::max(lo, std::min(hi, p))` limits a number `p` to `[lo, hi]`. -/
theorem fmax_fmin_isClamp (sl : Bool) (ml : Nat) (el : Int) (sh : Bool) (mh : Nat) (eh : Int)
    (hle : (Fp.fin sl ml el).toRat ≤ (Fp.fin sh mh eh).toRat) (p : Fp) (hp : p.isNaN = false) :
    IsClamp (Fp.fin sl ml el).toRat (Fp.fin sh mh eh).toRat p
      (fmax (Fp.fin sl ml el) (fmin (Fp.fin sh mh eh) p)) := by
  cases p with
  | nan s => simp [Fp.isNaN] at hp
  | inf s =>
    cases s
    · have h1 : fmin (Fp.fin sh mh eh) (Fp.inf false) = Fp.fin sh mh eh := by
        simp [fmin, Fp.lt]
      rw [h1]
      refine ⟨(fmax_fin _ _ _ _ _ _).1, ?_⟩
      simp only [Bool.false_eq_true, if_false]
      rw [(fmax_fin _ _ _ _ _ _).2]
      exact max_eq_right hle
    · have h1 : fmin (Fp.fin sh mh eh) (Fp.inf true) = Fp.inf true := by
        simp [fmin, Fp.lt]
      have h2 : fmax (Fp.fin sl ml el) (Fp.inf true) = Fp.fin sl ml el := by
        simp [fmax, Fp.lt]
      rw [h1, h2]
      exact ⟨rfl, by simp⟩
  | fin s m e =>
    obtain ⟨hf, hv⟩ := fmin_fin sh mh eh s m e
    obtain ⟨s2, m2, e2, h2⟩ := isFinite_cases _ hf
    rw [h2] at hv ⊢
    refine ⟨(fmax_fin _ _ _ _ _ _).1, ?_⟩
    show _ = max _ (min _ _)
    rw [(fmax_fin _ _ _ _ _ _).2, hv]

/-- `std::max(lo, std::min(hi, p))` is a finite number of `[lo, hi]` for every `p`,
a NaN included. -/
theorem fmax_fmin_range (sl : Bool) (ml : Nat) (el : Int) (sh : Bool) (mh : Nat) (eh : Int)
    (hle : (Fp.fin sl ml el).toRat ≤ (Fp.fin sh mh eh).toRat) (p : Fp) :
    (fmax (Fp.fin sl ml el) (fmin (Fp.fin sh mh eh) p)).isFinite = true ∧
      (Fp.fin sl ml el).toRat ≤ (fmax (Fp.fin sl ml el) (fmin (Fp.fin sh mh eh) p)).toRat ∧
      (fmax (Fp.fin sl ml el) (fmin (Fp.fin sh mh eh) p)).toRat ≤ (Fp.fin sh mh eh).toRat := by
  cases p with
  | nan s =>
    have h1 : fmin (Fp.fin sh mh eh) (Fp.nan s) = Fp.fin sh mh eh := by
      simp [fmin, Fp.lt]
    rw [h1, (fmax_fin _ _ _ _ _ _).2]
    exact ⟨(fmax_fin _ _ _ _ _ _).1, le_max_left _ _, max_le hle le_rfl⟩
  | inf s =>
    have h := fmax_fmin_isClamp sl ml el sh mh eh hle (Fp.inf s) rfl
    obtain ⟨hf, hv⟩ := h
    refine ⟨hf, ?_, ?_⟩
    · rw [hv]; split
      · exact le_rfl
      · exact hle
    · rw [hv]; split
      · exact hle
      · exact le_rfl
  | fin s m e =>
    have h := fmax_fmin_isClamp sl ml el sh mh eh hle (Fp.fin s m e) rfl
    obtain ⟨hf, hv⟩ := h
    refine ⟨hf, ?_, ?_⟩
    · rw [hv]; exact le_max_left _ _
    · rw [hv]; exact max_le hle (min_le_left _ _)

theorem negonef_toRat : negonef.toRat = -1 := by
  simp [negonef, Fp.toRat]

theorem onef_toRat : onef.toRat = 1 := by
  simp [onef, Fp.toRat]

theorem zerof_toRat : zerof.toRat = 0 := by
  simp [zerof, Fp.toRat]

theorem clamp_pan_tilt (p : Fp) (hp : p.isNaN = false) :
    IsClamp (-1) 1 p (fmax negonef (fmin onef p)) := by
  have h := fmax_fmin_isClamp true 1 0 false 1 0 (by simp [Fp.toRat]) p hp
  have h1 := negonef_toRat
  have h2 := onef_toRat
  unfold negonef at h1
  unfold onef at h2
  rw [h1, h2] at h
  exact h

theorem range_pan_tilt (p : Fp) :
    (fmax negonef (fmin onef p)).isFinite = true ∧
      -1 ≤ (fmax negonef (fmin onef p)).toRat ∧ (fmax negonef (fmin onef p)).toRat ≤ 1 := by
  have h := fmax_fmin_range true 1 0 false 1 0 (by simp [Fp.toRat]) p
  have h1 := negonef_toRat
  have h2 := onef_toRat
  unfold negonef at h1
  unfold onef at h2
  rw [h1, h2] at h
  exact h

theorem range_speed (p : Fp) :
    (fmax zerof (fmin onef p)).isFinite = true ∧
      0 ≤ (fmax zerof (fmin onef p)).toRat ∧ (fmax zerof (fmin onef p)).toRat ≤ 1 := by
  have h := fmax_fmin_range false 0 0 false 1 0 (by simp [Fp.toRat]) p
  have h1 := zerof_toRat
  have h2 := onef_toRat
  unfold zerof at h1
  unfold onef at h2
  rw [h1, h2] at h
  exact h

theorem clamp_speed (p : Fp) (hp : p.isNaN = false) :
    IsClamp 0 1 p (fmax zerof (fmin onef p)) := by
  have h := fmax_fmin_isClamp false 0 0 false 1 0 (by simp [Fp.toRat]) p hp
  have h1 := zerof_toRat
  have h2 := onef_toRat
  unfold zerof at h1
  unfold onef at h2
  rw [h1, h2] at h
  exact h

/-! ## Padding -/

theorem padLeft_of_le (w : Nat) (c : Char) (s : CString) (h : w ≤ s.length) :
    padLeft w c s = s := by
  simp [padLeft, Nat.sub_eq_zero_of_le h]

theorem padLeft_length (w : Nat) (c : Char) (s : CString) (h : s.length ≤ w) :
    (padLeft w c s).length = w := by
  simp only [padLeft, List.length_append, List.length_replicate]
  omega

theorem isdigit_zero : isdigit '0' = true := by decide

theorem padLeft_digits (w : Nat) (s : CString) (h : ∀ c ∈ s, isdigit c = true) :
    ∀ c ∈ padLeft w '0' s, isdigit c = true := by
  intro c hc
  simp only [padLeft, List.mem_append, List.mem_replicate] at hc
  rcases hc with hc | hc
  · rw [hc.2]; exact isdigit_zero
  · exact h c hc

/-! ## Value of the `%f` conversion -/

theorem digitsValue_natText (n : Nat) : digitsValue (natText n) = n := by
  induction n using Nat.strong_induction_on with
  | _ n ih =>
    by_cases h : n < 10
    · rw [natText_lt_ten n h]
      simp only [digitsValue, List.foldl_cons, List.foldl_nil, digitChar_toNat n h]
      omega
    · rw [natText_ge_ten n (by omega)]
      have hd : n % 10 < 10 := Nat.mod_lt _ (by decide)
      have := ih (n / 10) (by omega)
      unfold digitsValue at this ⊢
      rw [List.foldl_append, this]
      simp only [List.foldl_cons, List.foldl_nil, digitChar_toNat _ hd]
      omega

theorem digitsValue_replicate_zero (k : Nat) (s : CString) :
    digitsValue (List.replicate k '0' ++ s) = digitsValue s := by
  unfold digitsValue
  rw [List.foldl_append]
  congr 1
  induction k with
  | zero => rfl
  | succ k ih =>
    rw [List.replicate_succ, List.foldl_cons]
    have : (0 * 10 + (('0' : Char).toNat - 48)) = 0 := by decide
    rw [this]
    exact ih

theorem digitsValue_padLeft (w : Nat) (s : CString) :
    digitsValue (padLeft w '0' s) = digitsValue s := by
  unfold padLeft
  exact digitsValue_replicate_zero _ s

theorem roundHalfEven_close (n d : Nat) (hd : 0 < d) :
    |((n : ℚ) / (d : ℚ) - (roundHalfEven n d : ℚ))| ≤ 1 / 2 := by
  have hdq : (0 : ℚ) < (d : ℚ) := by exact_mod_cast hd
  have hn : (n : ℚ) = (d : ℚ) * ((n / d : Nat) : ℚ) + ((n % d : Nat) : ℚ) := by
    exact_mod_cast (Nat.div_add_mod n d).symm
  have hr : ((n % d : Nat) : ℚ) < (d : ℚ) := by exact_mod_cast Nat.mod_lt n hd
  have hr0 : (0 : ℚ) ≤ ((n % d : Nat) : ℚ) := by positivity
  have hq : (n : ℚ) / (d : ℚ) = ((n / d : Nat) : ℚ) + ((n % d : Nat) : ℚ) / (d : ℚ) := by
    rw [hn]
    field_simp
    ring
  have up : ∀ r : ℚ, 0 ≤ r → 2 * r ≤ (d : ℚ) →
      |(((n / d : Nat) : ℚ) + r / (d : ℚ) - ((n / d : Nat) : ℚ))| ≤ 1 / 2 := by
    intro r h0 h2
    have e : ((n / d : Nat) : ℚ) + r / (d : ℚ) - ((n / d : Nat) : ℚ) = r / (d : ℚ) := by
      ring
    rw [e, abs_of_nonneg (div_nonneg h0 hdq.le), div_le_iff₀ hdq]
    linarith
  have down : ∀ r : ℚ, r < (d : ℚ) → (d : ℚ) ≤ 2 * r →
      |(((n / d : Nat) : ℚ) + r / (d : ℚ) - (((n / d : Nat) : ℚ) + 1))| ≤ 1 / 2 := by
    intro r h1 h2
    have e : ((n / d : Nat) : ℚ) + r / (d : ℚ) - (((n / d : Nat) : ℚ) + 1)
        = -(((d : ℚ) - r) / (d : ℚ)) := by
      field_simp
      ring
    rw [e, abs_neg, abs_of_nonneg (div_nonneg (by linarith) hdq.le), div_le_iff₀ hdq]
    linarith
  rw [hq]
  unfold roundHalfEven
  simp only
  split
  · rename_i h
    have h2 : 2 * ((n % d : Nat) : ℚ) ≤ (d : ℚ) := by exact_mod_cast h.le
    exact up _ hr0 h2
  · split
    · rename_i h
      have h2 : (d : ℚ) ≤ 2 * ((n % d : Nat) : ℚ) := by exact_mod_cast h.le
      push_cast
      exact down _ hr h2
    · rename_i h1 h2
      have h3 : 2 * (n % d) = d := by omega
      have h4 : 2 * ((n % d : Nat) : ℚ) = (d : ℚ) := by exact_mod_cast h3
      split
      · exact up _ hr0 h4.le
      · push_cast
        exact down _ hr h4.ge

theorem Fp.abs_toRat_fin (s : Bool) (m : Nat) (e : Int) :
    |(Fp.fin s m e).toRat| = (m : ℚ) * (2 : ℚ) ^ e := by
  have h2 : (0 : ℚ) < (2 : ℚ) ^ e := zpow_pos (by norm_num) _
  have hm : (0 : ℚ) ≤ (m : ℚ) * (2 : ℚ) ^ e := by positivity
  cases s
  · simp only [Fp.toRat, Bool.false_eq_true, if_false, one_mul]
    exact abs_of_nonneg hm
  · simp only [Fp.toRat, if_true]
    rw [show (-1 : ℚ) * (m : ℚ) * (2 : ℚ) ^ e = -((m : ℚ) * (2 : ℚ) ^ e) by ring, abs_neg]
    exact abs_of_nonneg hm

theorem Fp.toRat_sign (s : Bool) (m : Nat) (e : Int) :
    (s = true → (Fp.fin s m e).toRat ≤ 0) ∧ (s = false → 0 ≤ (Fp.fin s m e).toRat) := by
  have h2 : (0 : ℚ) < (2 : ℚ) ^ e := zpow_pos (by norm_num) _
  have hm : (0 : ℚ) ≤ (m : ℚ) * (2 : ℚ) ^ e := by positivity
  constructor
  · intro hs
    rw [hs]
    simp only [Fp.toRat, if_true]
    linarith
  · intro hs
    rw [hs]
    simp only [Fp.toRat, Bool.false_eq_true, if_false, one_mul]
    exact hm

theorem fmt_f_numeral (w p : Nat) (hp : 0 < p) (x : Fp) (hx : x.isFinite = true)
    (hw : w ≤ p + 2) : IsNumeralOf p x.toRat (fmt_f w p x) := by
  obtain ⟨s, m, e, rfl⟩ := isFinite_cases x hx
  have hp0 : p ≠ 0 := by omega
  have hclose : ∀ n : Nat,
      n = (if 0 ≤ e then m * 2 ^ e.toNat * 10 ^ p
        else roundHalfEven (m * 10 ^ p) (2 ^ (-e).toNat)) →
      |((m : ℚ) * (2 : ℚ) ^ e * 10 ^ p - (n : ℚ))| ≤ 1 / 2 := by
    intro n hn
    by_cases he : 0 ≤ e
    · rw [if_pos he] at hn
      have h2 : (2 : ℚ) ^ e = (2 : ℚ) ^ e.toNat := by
        rw [← zpow_natCast, Int.toNat_of_nonneg he]
      rw [hn, h2]
      push_cast
      simp
    · rw [if_neg he] at hn
      have hpos : 0 < 2 ^ (-e).toNat := by positivity
      have h := roundHalfEven_close (m * 10 ^ p) (2 ^ (-e).toNat) hpos
      have h2 : (2 : ℚ) ^ e = 1 / (2 : ℚ) ^ (-e).toNat := by
        rw [← zpow_natCast, Int.toNat_of_nonneg (by omega), zpow_neg]
        simp
      rw [hn, h2]
      push_cast at h ⊢
      have e3 : (m : ℚ) * (1 / 2 ^ (-e).toNat) * 10 ^ p
          = (m : ℚ) * 10 ^ p / 2 ^ (-e).toNat := by
        ring
      rw [e3]
      exact h
  simp only [fmt_f, hp0, if_false]
  generalize hn : (if 0 ≤ e then m * 2 ^ e.toNat * 10 ^ p
      else roundHalfEven (m * 10 ^ p) (2 ^ (-e).toNat)) = n
  have hcl := hclose n hn.symm
  have hlen : (natText (n % 10 ^ p)).length ≤ p := by
    obtain ⟨k, rfl⟩ : ∃ k, p = k + 1 := ⟨p - 1, by omega⟩
    exact natText_length_le k _ (Nat.mod_lt _ (by positivity))
  have hfl : (padLeft p '0' (natText (n % 10 ^ p))).length = p := padLeft_length _ _ _ hlen
  have h1 : 1 ≤ (natText (n / 10 ^ p)).length := by
    have := natText_ne_nil (n / 10 ^ p)
    cases hh : natText (n / 10 ^ p) with
    | nil => exact absurd hh this
    | cons a l => simp
  rw [padLeft_of_le]
  · refine ⟨s, natText (n / 10 ^ p), padLeft p '0' (natText (n % 10 ^ p)), rfl,
      natText_ne_nil _, natText_digits _, hfl, padLeft_digits _ _ (natText_digits _),
      (Fp.toRat_sign s m e).1, (Fp.toRat_sign s m e).2, ?_⟩
    rw [digitsValue_natText, digitsValue_padLeft, digitsValue_natText, Fp.abs_toRat_fin]
    have h10 : (0 : ℚ) < (10 : ℚ) ^ p := by positivity
    have hdm : ((n / 10 ^ p : Nat) : ℚ) + ((n % 10 ^ p : Nat) : ℚ) / 10 ^ p
        = (n : ℚ) / 10 ^ p := by
      have := Nat.div_add_mod n (10 ^ p)
      have hq : (n : ℚ)
          = (10 : ℚ) ^ p * ((n / 10 ^ p : Nat) : ℚ) + ((n % 10 ^ p : Nat) : ℚ) := by
        exact_mod_cast this.symm
      rw [eq_div_iff h10.ne']
      rw [hq]
      field_simp
      ring
    rw [hdm]
    have e4 : (m : ℚ) * (2 : ℚ) ^ e - (n : ℚ) / 10 ^ p
        = ((m : ℚ) * (2 : ℚ) ^ e * 10 ^ p - (n : ℚ)) / 10 ^ p := by
      field_simp
    rw [e4, abs_div, abs_of_pos h10, div_le_iff₀ h10]
    calc |((m : ℚ) * (2 : ℚ) ^ e * 10 ^ p - (n : ℚ))| ≤ 1 / 2 := hcl
      _ = 1 / (2 * 10 ^ p) * 10 ^ p := by field_simp
  · simp only [List.length_append, List.length_cons, hfl]
    omega

/-! ## Reading numbers -/

theorem tolower_idem (c : Char) : tolower (tolower c) = tolower c := by
  by_cases h : 65 ≤ c.toNat ∧ c.toNat ≤ 90
  · have h1 : tolower c = Char.ofNat (c.toNat + 32) := by simp [tolower, h]
    have h2 : (Char.ofNat (c.toNat + 32)).toNat = c.toNat + 32 :=
      toNat_ofNat_small _ (by omega)
    rw [h1]
    have h3 : ¬ (65 ≤ (Char.ofNat (c.toNat + 32)).toNat
        ∧ (Char.ofNat (c.toNat + 32)).toNat ≤ 90) := by
      rw [h2]; omega
    simp only [tolower, h3, if_false]
  · have h1 : tolower c = c := by simp only [tolower, h, if_false]
    rw [h1, h1]

theorem strcasecmp_map : ∀ a b : CString,
    strcasecmp (a.map tolower) (b.map tolower) = strcasecmp a b
  | [], [] => rfl
  | [], b :: _ => by simp [strcasecmp, tolower_idem]
  | a :: _, [] => by simp [strcasecmp, tolower_idem]
  | a :: as, b :: bs => by
    simp only [List.map_cons, strcasecmp, tolower_idem]
    rw [strcasecmp_map as bs]

theorem strcasecmp_congr (a b v : CString) (h : eqIgnoreCase a b) :
    strcasecmp a v = strcasecmp b v := by
  have h1 : a.map tolower = b.map tolower := by
    have e : tolower = Char.toLower := funext tolower_eq_toLower
    rw [e]; exact h
  rw [← strcasecmp_map a v, ← strcasecmp_map b v, h1]

theorem imax_imin_eq (lo hi i : Int) : imax lo (imin hi i) = max lo (min hi i) := by
  unfold imax imin
  split <;> split <;> omega

theorem digitVal_lt_ten (c : Char) (d : Nat) (h : digitVal c = some d) (hd : d < 10) :
    isdigit c = true := by
  unfold digitVal at h
  unfold isdigit
  split at h
  · rename_i hc
    simp [hc.1, hc.2]
  · split at h
    · simp only [Option.some.injEq] at h; omega
    · split at h
      · simp only [Option.some.injEq] at h; omega
      · simp at h

theorem scan_no_digit (acc n : Nat) (r : CString) (h : startsWithDigit r = false) :
    scan 10 acc n r = (acc, n, r) := by
  cases r with
  | nil => rfl
  | cons c cs =>
    simp only [startsWithDigit] at h
    simp only [scan]
    cases hd : digitVal c with
    | none => rfl
    | some d =>
      by_cases h10 : d < 10
      · rw [digitVal_lt_ten c d hd h10] at h
        simp at h
      · simp [h10]

theorem atoi_of_no_integer (s : CString) (h : holdsInteger s = false) : atoi s = 0 := by
  unfold holdsInteger at h
  simp only [atoi, strtol, scan_no_digit 0 0 _ h]
  split <;> simp [toInt32, LONG_MIN, LONG_MAX]

theorem startsWithCI_zero_x (r : CString) (h : startsWithDigit r = false) :
    startsWithCI r ['0', 'x'] = false := by
  cases r with
  | nil => rfl
  | cons c cs =>
    simp only [startsWithDigit] at h
    simp only [startsWithCI, Bool.and_eq_false_imp, beq_iff_eq]
    intro hc
    exfalso
    have : isdigit c = true := by
      by_cases hu : 65 ≤ c.toNat ∧ c.toNat ≤ 90
      · have h1 : tolower c = Char.ofNat (c.toNat + 32) := by simp [tolower, hu]
        have h2 := toNat_ofNat_small (c.toNat + 32) (by omega)
        rw [← h1, hc] at h2
        have : ('0' : Char).toNat = 48 := by decide
        omega
      · have h1 : tolower c = c := by simp only [tolower, hu, if_false]
        rw [h1] at hc
        rw [hc]; decide
    rw [this] at h
    simp at h

theorem strtodDigits_none (neg : Bool) (r : CString) (h1 : startsWithDigit r = false)
    (h2 : startsWithPointDigit r = false) : strtodDigits neg 10 r = none := by
  have hf : (match r with
      | '.' :: r2 => scan 10 0 0 r2
      | r2 => (0, 0, r2)).2.1 = 0 := by
    split
    · rename_i r2
      have hr : startsWithDigit r2 = false := by
        cases r2 with
        | nil => rfl
        | cons c cs => simpa [startsWithPointDigit, startsWithDigit] using h2
      rw [scan_no_digit 0 0 r2 hr]
    · rfl
  unfold strtodDigits
  simp only [scan_no_digit 0 0 r h1]
  rw [if_pos (by rw [hf])]

theorem atof_of_no_number (s : CString) (h : holdsNumber s = false) :
    atof s = Fp.fin false 0 0 := by
  unfold holdsNumber at h
  simp only [Bool.or_eq_false_iff] at h
  obtain ⟨⟨⟨h1, h2⟩, h3⟩, h4⟩ := h
  simp only [atof, strtod, h3, h4, startsWithCI_zero_x _ h1, strtodDigits_none _ _ h1 h2]
  simp

theorem toFloat_zero : toFloat (Fp.fin false 0 0) = zerof := by decide

theorem atoi_fmt_d (i : Int) (h1 : INT_MIN ≤ i) (h2 : i ≤ INT_MAX) : atoi (fmt_d i) = i := by
  unfold INT_MIN at h1
  unfold INT_MAX at h2
  have hs : ∀ n : Nat, skipSpace (natText n) = natText n := by
    intro n
    have hne := natText_ne_nil n
    have hd := natText_digits n
    cases hn : natText n with
    | nil => exact absurd hn hne
    | cons c cs =>
      rw [hn] at hd
      have hc := hd c (by simp)
      have : isspace c = false := by
        simp only [isdigit, Bool.and_eq_true, decide_eq_true_eq] at hc
        simp only [isspace, Bool.or_eq_false_iff, Bool.and_eq_false_imp, decide_eq_false_iff_not,
          decide_eq_true_eq]
        omega
      simp [skipSpace, this]
  have ht : ∀ n : Nat, takeSign (natText n) = (false, natText n) := by
    intro n
    have hne := natText_ne_nil n
    have hd := natText_digits n
    cases hn : natText n with
    | nil => exact absurd hn hne
    | cons c cs =>
      rw [hn] at hd
      have hc := hd c (by simp)
      have hm : c ≠ '-' := by
        intro he; rw [he] at hc; revert hc; decide
      have hp : c ≠ '+' := by
        intro he; rw [he] at hc; revert hc; decide
      unfold takeSign
      split
      · rename_i heq; simp only [List.cons.injEq] at heq; exact absurd heq.1 hm
      · rename_i heq; simp only [List.cons.injEq] at heq; exact absurd heq.1 hp
      · rfl
  by_cases hneg : i < 0
  · have hfmt : fmt_d i = '-' :: natText i.natAbs := by simp [fmt_d, hneg]
    have hsk : skipSpace ('-' :: natText i.natAbs) = '-' :: natText i.natAbs := by
      simp [skipSpace, isspace]
    simp only [atoi, strtol, hfmt, hsk, takeSign, scan_natText_value, if_true]
    have : ((i.natAbs : Nat) : Int) = -i := by omega
    rw [this]
    simp only [LONG_MIN, toInt32]
    split <;> omega
  · have hfmt : fmt_d i = natText i.natAbs := by simp [fmt_d, hneg]
    simp only [atoi, strtol, hfmt, hs, ht, scan_natText_value]
    have : ((i.natAbs : Nat) : Int) = i := by omega
    rw [this]
    simp only [LONG_MAX, toInt32]
    simp only [Bool.false_eq_true, if_false]
    split <;> omega

/-! ## The verb dispatch -/

theorem dispatch_pan_tilt (self : NdiOutput) (n : xml_node)
    (h : eqIgnoreCase n.name "ntk_ptz_pan_tilt_speed".toList) :
    dispatch self n =
      [Event.sendto self.udpsocket
        ("PT:".toList
          ++ fmt_f 0 3 (fmax negonef (fmin onef (floatAttr n "pan_speed".toList zerof)))
          ++ ":".toList
          ++ fmt_f 0 3 (fmax negonef (fmin onef (floatAttr n "tilt_speed".toList zerof))))
        self.dst] := by
  have h0 := strcasecmp_eq_zero_of_eqIgnoreCase _ _ h
  simp only [dispatch, h0, if_true, List.take_length, floatAttr]

theorem dispatch_store_preset (self : NdiOutput) (n : xml_node)
    (h : eqIgnoreCase n.name "ntk_ptz_store_preset".toList) :
    dispatch self n =
      [Event.sendto self.udpsocket
        ("SP:".toList ++ fmt_d (imax 0 (imin 99 (intAttr n "index".toList 0)))) self.dst] := by
  have h0 := strcasecmp_eq_zero_of_eqIgnoreCase _ _ h
  have h1 : strcasecmp n.name "ntk_ptz_pan_tilt_speed".toList ≠ 0 := by
    rw [strcasecmp_congr _ _ _ h]; decide
  simp only [dispatch, h0, h1, if_true, if_false, List.take_length, intAttr]

theorem dispatch_recall_preset (self : NdiOutput) (n : xml_node)
    (h : eqIgnoreCase n.name "ntk_ptz_recall_preset".toList) :
    dispatch self n =
      [Event.sendto self.udpsocket
        ("RP:".toList ++ fmt_d (imax 0 (imin 99 (intAttr n "index".toList 0))) ++ ":".toList
          ++ fmt_f 1 2 (fmax zerof (fmin onef (floatAttr n "speed".toList onef))))
        self.dst] := by
  have h0 := strcasecmp_eq_zero_of_eqIgnoreCase _ _ h
  have h1 : strcasecmp n.name "ntk_ptz_pan_tilt_speed".toList ≠ 0 := by
    rw [strcasecmp_congr _ _ _ h]; decide
  have h2 : strcasecmp n.name "ntk_ptz_store_preset".toList ≠ 0 := by
    rw [strcasecmp_congr _ _ _ h]; decide
  simp only [dispatch, h0, h1, h2, if_true, if_false, List.take_length, intAttr, floatAttr]

theorem dispatch_unknown (self : NdiOutput) (n : xml_node) (h0 : ∀ c ∈ n.name, c.toNat ≠ 0)
    (h1 : ¬ eqIgnoreCase n.name "ntk_ptz_pan_tilt_speed".toList)
    (h2 : ¬ eqIgnoreCase n.name "ntk_ptz_store_preset".toList)
    (h3 : ¬ eqIgnoreCase n.name "ntk_ptz_recall_preset".toList) :
    dispatch self n = [] := by
  have e1 := strcasecmp_ne_zero_of_not_eqIgnoreCase _ _ h0 (by decide) h1
  have e2 := strcasecmp_ne_zero_of_not_eqIgnoreCase _ _ h0 (by decide) h2
  have e3 := strcasecmp_ne_zero_of_not_eqIgnoreCase _ _ h0 (by decide) h3
  simp only [dispatch, e1, e2, e3, if_false]

theorem handle_parsed (self : NdiOutput) (f : NDIlib_metadata_frame_t) (n : xml_node)
    (hf : f.xml = xml_document.parsed (some n)) :
    handle self f =
      { events := dispatch self n ++ [Event.send_free_metadata self.pNDI_send f]
        completed := true } := by
  simp only [handle, hf]

theorem datagrams_append (a b : List Event) :
    datagrams (a ++ b) = datagrams a ++ datagrams b := by
  induction a with
  | nil => rfl
  | cons e es ih => cases e <;> simp [datagrams, ih]

theorem floatAttr_some (n : xml_node) (k : CString) (d : Fp) (a : xml_attribute)
    (h : n.first_attribute k = some a) : floatAttr n k d = toFloat (atof a.value) := by
  simp only [floatAttr, h]

theorem intAttr_some (n : xml_node) (k : CString) (d : Int) (a : xml_attribute)
    (h : n.first_attribute k = some a) : intAttr n k d = atoi a.value := by
  simp only [intAttr, h]

theorem handle_frame_pointer (self : NdiOutput) (mem : Nat) (f : NDIlib_metadata_frame_t) :
    handle { self with NDI_video_frame := { self.NDI_video_frame with p_data := mem } } f
      = handle self f := rfl

/-- A call of `outputBuffer` that finds the single frame `f` sends the datagrams of
the handling of `f`. -/
theorem outputBuffer_single (self : NdiOutput) (mem : Nat) (f : NDIlib_metadata_frame_t)
    (h : (handle self f).completed = true) :
    datagrams (self.outputBuffer mem [f]).2.events = datagrams (handle self f).events ∧
      (self.outputBuffer mem [f]).2.completed = true := by
  simp only [NdiOutput.outputBuffer, drain, handle_frame_pointer, h, if_true, datagrams,
    datagrams_append, List.append_nil]
  trivial

/-! ## The claims -/

/-- C1: a metadata frame whose first node is named `ntk_ptz_pan_tilt_speed` in any
letter case, with `pan_speed` and `tilt_speed` attributes read as the single-precision
values `p` and `t`, is handled by sending exactly one datagram `PT:X:Y`; `X` and `Y`
are numbers of `[-1, 1]`, each printed as a numeral with exactly three fractional
digits, and `X` is `p` limited to `[-1, 1]`, `Y` is `t` limited to `[-1, 1]`, whenever
`p`, `t` are numbers (finite or infinite); the handling completes. -/
theorem pan_tilt_speed_datagram (self : NdiOutput) (f : NDIlib_metadata_frame_t)
    (n : xml_node) (a b : xml_attribute)
    (hf : f.xml = xml_document.parsed (some n))
    (hname : eqIgnoreCase n.name "ntk_ptz_pan_tilt_speed".toList)
    (ha : n.first_attribute "pan_speed".toList = some a)
    (hb : n.first_attribute "tilt_speed".toList = some b) :
    ∃ X Y : Fp,
      datagrams (handle self f).events
        = ["PT:".toList ++ fmt_f 0 3 X ++ ":".toList ++ fmt_f 0 3 Y] ∧
      (X.isFinite = true ∧ -1 ≤ X.toRat ∧ X.toRat ≤ 1) ∧
      (Y.isFinite = true ∧ -1 ≤ Y.toRat ∧ Y.toRat ≤ 1) ∧
      IsNumeralOf 3 X.toRat (fmt_f 0 3 X) ∧ IsNumeralOf 3 Y.toRat (fmt_f 0 3 Y) ∧
      ((toFloat (atof a.value)).isNaN = false → IsClamp (-1) 1 (toFloat (atof a.value)) X) ∧
      ((toFloat (atof b.value)).isNaN = false → IsClamp (-1) 1 (toFloat (atof b.value)) Y) ∧
      (handle self f).completed = true ∧
      ∀ mem : Nat,
        datagrams (self.outputBuffer mem [f]).2.events
          = ["PT:".toList ++ fmt_f 0 3 X ++ ":".toList ++ fmt_f 0 3 Y] ∧
        (self.outputBuffer mem [f]).2.completed = true := by
  have hX := range_pan_tilt (toFloat (atof a.value))
  have hY := range_pan_tilt (toFloat (atof b.value))
  have hc : (handle self f).completed = true := by rw [handle_parsed self f n hf]
  have hd : datagrams (handle self f).events
      = ["PT:".toList ++ fmt_f 0 3 (fmax negonef (fmin onef (toFloat (atof a.value))))
          ++ ":".toList ++ fmt_f 0 3 (fmax negonef (fmin onef (toFloat (atof b.value))))] := by
    rw [handle_parsed self f n hf, dispatch_pan_tilt self n hname,
      floatAttr_some n _ _ a ha, floatAttr_some n _ _ b hb]
    rfl
  refine ⟨_, _, hd, hX, hY, fmt_f_numeral 0 3 (by decide) _ hX.1 (by decide),
    fmt_f_numeral 0 3 (by decide) _ hY.1 (by decide), clamp_pan_tilt _, clamp_pan_tilt _,
    hc, ?_⟩
  intro mem
  rw [(outputBuffer_single self mem f hc).1, hd]
  exact ⟨rfl, (outputBuffer_single self mem f hc).2⟩

/-- C2: a metadata frame whose first node is named `ntk_ptz_recall_preset` in any
letter case, with the `index` attribute holding the integer `i` and the `speed`
attribute read as the single-precision value `s`, is handled by sending exactly one
datagram `RP:I:S`; `I` is the decimal text of `i` limited to `[0, 99]`, `S` is a
number of `[0, 1]` printed as a numeral with exactly two fractional digits, and `S`
is `s` limited to `[0, 1]` whenever `s` is a number; the handling completes. -/
theorem recall_preset_datagram (self : NdiOutput) (f : NDIlib_metadata_frame_t)
    (n : xml_node) (a b : xml_attribute) (i : Int)
    (hf : f.xml = xml_document.parsed (some n))
    (hname : eqIgnoreCase n.name "ntk_ptz_recall_preset".toList)
    (ha : n.first_attribute "index".toList = some a)
    (hb : n.first_attribute "speed".toList = some b)
    (hi : a.value = fmt_d i) (hlo : INT_MIN ≤ i) (hhi : i ≤ INT_MAX) :
    ∃ S : Fp,
      datagrams (handle self f).events
        = ["RP:".toList ++ fmt_d (max 0 (min 99 i)) ++ ":".toList ++ fmt_f 1 2 S] ∧
      (S.isFinite = true ∧ 0 ≤ S.toRat ∧ S.toRat ≤ 1) ∧
      IsNumeralOf 2 S.toRat (fmt_f 1 2 S) ∧
      ((toFloat (atof b.value)).isNaN = false → IsClamp 0 1 (toFloat (atof b.value)) S) ∧
      (handle self f).completed = true ∧
      ∀ mem : Nat,
        datagrams (self.outputBuffer mem [f]).2.events
          = ["RP:".toList ++ fmt_d (max 0 (min 99 i)) ++ ":".toList ++ fmt_f 1 2 S] ∧
        (self.outputBuffer mem [f]).2.completed = true := by
  have hS := range_speed (toFloat (atof b.value))
  have hc : (handle self f).completed = true := by rw [handle_parsed self f n hf]
  have hd : datagrams (handle self f).events
      = ["RP:".toList ++ fmt_d (max 0 (min 99 i)) ++ ":".toList
          ++ fmt_f 1 2 (fmax zerof (fmin onef (toFloat (atof b.value))))] := by
    rw [handle_parsed self f n hf, dispatch_recall_preset self n hname,
      floatAttr_some n _ _ b hb, intAttr_some n _ _ a ha, hi, atoi_fmt_d i hlo hhi,
      imax_imin_eq]
    rfl
  refine ⟨_, hd, hS, fmt_f_numeral 1 2 (by decide) _ hS.1 (by decide), clamp_speed _, hc, ?_⟩
  intro mem
  rw [(outputBuffer_single self mem f hc).1, hd]
  exact ⟨rfl, (outputBuffer_single self mem f hc).2⟩

/-- C3: a metadata frame whose first node is named `ntk_ptz_store_preset` in any
letter case, with the `index` attribute holding any `int` `i` (negative and above
99 included), is handled by sending exactly one datagram: `SP:` followed by the
decimal text of `i` limited to `[0, 99]`. -/
theorem store_preset_datagram (self : NdiOutput) (f : NDIlib_metadata_frame_t)
    (n : xml_node) (a : xml_attribute) (i : Int)
    (hf : f.xml = xml_document.parsed (some n))
    (hname : eqIgnoreCase n.name "ntk_ptz_store_preset".toList)
    (ha : n.first_attribute "index".toList = some a)
    (hi : a.value = fmt_d i) (hlo : INT_MIN ≤ i) (hhi : i ≤ INT_MAX) :
    datagrams (handle self f).events = ["SP:".toList ++ fmt_d (max 0 (min 99 i))] ∧
      (handle self f).completed = true ∧
      ∀ mem : Nat,
        datagrams (self.outputBuffer mem [f]).2.events
          = ["SP:".toList ++ fmt_d (max 0 (min 99 i))] ∧
        (self.outputBuffer mem [f]).2.completed = true := by
  have hc : (handle self f).completed = true := by rw [handle_parsed self f n hf]
  have hd : datagrams (handle self f).events = ["SP:".toList ++ fmt_d (max 0 (min 99 i))] := by
    rw [handle_parsed self f n hf, dispatch_store_preset self n hname,
      intAttr_some n _ _ a ha, hi, atoi_fmt_d i hlo hhi, imax_imin_eq]
    rfl
  refine ⟨hd, hc, ?_⟩
  intro mem
  rw [(outputBuffer_single self mem f hc).1, hd]
  exact ⟨rfl, (outputBuffer_single self mem f hc).2⟩

/-- Scenario S2 for C1: the hypotheses hold for the frame
`<ntk_ptz_pan_tilt_speed pan_speed="0.25" tilt_speed="-2.0"/>`, and its datagram is
`PT:0.250:-1.000`. -/
theorem pan_tilt_speed_datagram_witness :
    (∃ X Y : Fp,
      datagrams (handle sampleOutput panTiltFrame).events
        = ["PT:".toList ++ fmt_f 0 3 X ++ ":".toList ++ fmt_f 0 3 Y] ∧
      (X.isFinite = true ∧ -1 ≤ X.toRat ∧ X.toRat ≤ 1) ∧
      (Y.isFinite = true ∧ -1 ≤ Y.toRat ∧ Y.toRat ≤ 1) ∧
      IsNumeralOf 3 X.toRat (fmt_f 0 3 X) ∧ IsNumeralOf 3 Y.toRat (fmt_f 0 3 Y) ∧
      ((toFloat (atof "0.25".toList)).isNaN = false →
        IsClamp (-1) 1 (toFloat (atof "0.25".toList)) X) ∧
      ((toFloat (atof "-2.0".toList)).isNaN = false →
        IsClamp (-1) 1 (toFloat (atof "-2.0".toList)) Y) ∧
      (handle sampleOutput panTiltFrame).completed = true ∧
      ∀ mem : Nat,
        datagrams (sampleOutput.outputBuffer mem [panTiltFrame]).2.events
          = ["PT:".toList ++ fmt_f 0 3 X ++ ":".toList ++ fmt_f 0 3 Y] ∧
        (sampleOutput.outputBuffer mem [panTiltFrame]).2.completed = true) ∧
    (toFloat (atof "0.25".toList)).isNaN = false ∧
    (toFloat (atof "-2.0".toList)).isNaN = false ∧
    datagrams (handle sampleOutput panTiltFrame).events = ["PT:0.250:-1.000".toList] :=
  ⟨pan_tilt_speed_datagram sampleOutput panTiltFrame
      { type := node_type.node_element
        name := "ntk_ptz_pan_tilt_speed".toList
        attributes :=
          [⟨"pan_speed".toList, "0.25".toList⟩, ⟨"tilt_speed".toList, "-2.0".toList⟩] }
      ⟨"pan_speed".toList, "0.25".toList⟩ ⟨"tilt_speed".toList, "-2.0".toList⟩
      rfl (by decide) rfl rfl,
    rfl, rfl, rfl⟩

/-- Scenario S4 for C2: the hypotheses hold for the frame
`<ntk_ptz_recall_preset index="7" speed="0.5"/>`, and its datagram is `RP:7:0.50`. -/
theorem recall_preset_datagram_witness :
    (∃ S : Fp,
      datagrams (handle sampleOutput recallPresetFrame).events
        = ["RP:".toList ++ fmt_d (max 0 (min 99 7)) ++ ":".toList ++ fmt_f 1 2 S] ∧
      (S.isFinite = true ∧ 0 ≤ S.toRat ∧ S.toRat ≤ 1) ∧
      IsNumeralOf 2 S.toRat (fmt_f 1 2 S) ∧
      ((toFloat (atof "0.5".toList)).isNaN = false →
        IsClamp 0 1 (toFloat (atof "0.5".toList)) S) ∧
      (handle sampleOutput recallPresetFrame).completed = true ∧
      ∀ mem : Nat,
        datagrams (sampleOutput.outputBuffer mem [recallPresetFrame]).2.events
          = ["RP:".toList ++ fmt_d (max 0 (min 99 7)) ++ ":".toList ++ fmt_f 1 2 S] ∧
        (sampleOutput.outputBuffer mem [recallPresetFrame]).2.completed = true) ∧
    (toFloat (atof "0.5".toList)).isNaN = false ∧
    datagrams (handle sampleOutput recallPresetFrame).events = ["RP:7:0.50".toList] :=
  ⟨recall_preset_datagram sampleOutput recallPresetFrame
      { type := node_type.node_element
        name := "ntk_ptz_recall_preset".toList
        attributes := [⟨"index".toList, "7".toList⟩, ⟨"speed".toList, "0.5".toList⟩] }
      ⟨"index".toList, "7".toList⟩ ⟨"speed".toList, "0.5".toList⟩ 7
      rfl (by decide) rfl rfl rfl (by decide) (by decide),
    rfl, rfl⟩

/-- Scenario S3 for C3: the hypotheses hold for the frame
`<ntk_ptz_store_preset index="150"/>`, and its datagram is `SP:99`. -/
theorem store_preset_datagram_witness :
    (datagrams (handle sampleOutput storePresetFrame).events
        = ["SP:".toList ++ fmt_d (max 0 (min 99 150))] ∧
      (handle sampleOutput storePresetFrame).completed = true ∧
      ∀ mem : Nat,
        datagrams (sampleOutput.outputBuffer mem [storePresetFrame]).2.events
          = ["SP:".toList ++ fmt_d (max 0 (min 99 150))] ∧
        (sampleOutput.outputBuffer mem [storePresetFrame]).2.completed = true) ∧
    datagrams (handle sampleOutput storePresetFrame).events = ["SP:99".toList] :=
  ⟨store_preset_datagram sampleOutput storePresetFrame
      { type := node_type.node_element
        name := "ntk_ptz_store_preset".toList
        attributes := [⟨"index".toList, "150".toList⟩] }
      ⟨"index".toList, "150".toList⟩ 150
      rfl (by decide) rfl rfl (by decide) (by decide),
    rfl⟩

/-! ## The drain loop -/

theorem released_append (a b : List Event) :
    released (a ++ b) = released a ++ released b := by
  induction a with
  | nil => rfl
  | cons e es ih => cases e <;> simp [released, ih]

theorem captured_append (a b : List Event) :
    captured (a ++ b) = captured a ++ captured b := by
  induction a with
  | nil => rfl
  | cons e es ih =>
    cases e with
    | send_capture h t m => cases m <;> simp [captured, ih]
    | _ => simp [captured, ih]

theorem submitted_append (a b : List Event) :
    submitted (a ++ b) = submitted a ++ submitted b := by
  induction a with
  | nil => rfl
  | cons e es ih => cases e <;> simp [submitted, ih]

theorem dispatch_sends_only (self : NdiOutput) (n : xml_node) :
    released (dispatch self n) = [] ∧ captured (dispatch self n) = [] ∧
      submitted (dispatch self n) = [] := by
  unfold dispatch
  split
  · exact ⟨rfl, rfl, rfl⟩
  · split
    · exact ⟨rfl, rfl, rfl⟩
    · split
      · exact ⟨rfl, rfl, rfl⟩
      · exact ⟨rfl, rfl, rfl⟩

theorem handle_submits_nothing (self : NdiOutput) (f : NDIlib_metadata_frame_t) :
    submitted (handle self f).events = [] := by
  unfold handle
  split
  · rfl
  · rfl
  · simp only [submitted_append, (dispatch_sends_only self _).2.2]
    rfl

theorem drain_submits_nothing (self : NdiOutput) :
    ∀ inbound : List NDIlib_metadata_frame_t, submitted (drain self inbound).events = []
  | [] => rfl
  | f :: rest => by
    simp only [drain]
    split
    · simp only [submitted, submitted_append, handle_submits_nothing,
        drain_submits_nothing self rest, List.append_nil]
    · simp only [submitted, handle_submits_nothing]

theorem handle_with_first_node (self : NdiOutput) (f : NDIlib_metadata_frame_t)
    (h : f.xml ≠ xml_document.parsed none) :
    (handle self f).completed = true ∧ released (handle self f).events = [f] ∧
      captured (handle self f).events = [] := by
  unfold handle
  split
  · exact ⟨rfl, rfl, rfl⟩
  · rename_i heq
    exact absurd heq h
  · refine ⟨rfl, ?_, ?_⟩
    · rw [released_append, (dispatch_sends_only self _).1]
      rfl
    · rw [captured_append, (dispatch_sends_only self _).2.1]
      rfl

/-- When every frame the transport holds parses to a document with a first node, or
fails to parse, the call completes, polls every frame and releases each of them
exactly once, in order. -/
theorem drain_releases_all (self : NdiOutput) :
    ∀ inbound : List NDIlib_metadata_frame_t,
      (∀ g ∈ inbound, g.xml ≠ xml_document.parsed none) →
      (drain self inbound).completed = true ∧ released (drain self inbound).events = inbound ∧
        captured (drain self inbound).events = inbound
  | [], _ => ⟨rfl, rfl, rfl⟩
  | f :: rest, h => by
    obtain ⟨h1, h2, h3⟩ := handle_with_first_node self f (h f (by simp))
    obtain ⟨r1, r2, r3⟩ := drain_releases_all self rest (fun g hg => h g (by simp [hg]))
    simp only [drain, h1, if_true, released, captured, released_append, captured_append,
      h2, h3, r1, r2, r3]
    simp

theorem handle_rejectedOrUnknown (self : NdiOutput) (f : NDIlib_metadata_frame_t)
    (hf : rejectedOrUnknown f) :
    datagrams (handle self f).events = [] ∧ (handle self f).completed = true := by
  rcases hf with hf | ⟨n, hf, h0, h1, h2, h3⟩
  · have h : handle self f =
        { events := [Event.send_free_metadata self.pNDI_send f], completed := true } := by
      simp only [handle, hf]
    rw [h]
    constructor
    · rfl
    · rfl
  · rw [handle_parsed self f n hf, dispatch_unknown self n h0 h1 h2 h3]
    constructor
    · rfl
    · rfl

theorem drain_rejectedOrUnknown (self : NdiOutput) :
    ∀ inbound : List NDIlib_metadata_frame_t, (∀ g ∈ inbound, rejectedOrUnknown g) →
      datagrams (drain self inbound).events = [] ∧ (drain self inbound).completed = true
  | [], _ => ⟨rfl, rfl⟩
  | f :: rest, h => by
    obtain ⟨h1, h2⟩ := handle_rejectedOrUnknown self f (h f (by simp))
    obtain ⟨r1, r2⟩ := drain_rejectedOrUnknown self rest (fun g hg => h g (by simp [hg]))
    simp only [drain, h2, if_true, datagrams, datagrams_append, h1, r1, r2]
    simp

/-- C4: at a metadata frame with an empty payload (the parse succeeds, the document
has no node) the frame is not dropped: the handling does not complete, because the
null first node is dereferenced for its name, and the drain loop does not go on to
the frame behind it. -/
theorem missing_root_stops_the_drain :
    (handle sampleOutput emptyFrame).completed = false ∧
    (sampleOutput.outputBuffer 4096 [emptyFrame, storePresetFrame]).2 =
      { events :=
          [Event.send_video 7
            { xres := 1920, yres := 1080
              FourCC := NDIlib_FourCC_video_type_e.NDIlib_FourCC_type_I420
              line_stride_in_bytes := 1920, p_data := 4096 },
           Event.send_capture 7 0 (some emptyFrame)]
        completed := false } := by
  constructor
  · rfl
  · rfl

/-- C5: with a frame of empty payload between two others in the transport's queue,
the call polls the first two frames and releases only the first: the frame without
a first node is never released, and the call does not complete. -/
theorem missing_root_never_released :
    captured (sampleOutput.outputBuffer 4096
        [unknownVerbFrame, emptyFrame, storePresetFrame]).2.events
      = [unknownVerbFrame, emptyFrame] ∧
    released (sampleOutput.outputBuffer 4096
        [unknownVerbFrame, emptyFrame, storePresetFrame]).2.events
      = [unknownVerbFrame] ∧
    (sampleOutput.outputBuffer 4096
        [unknownVerbFrame, emptyFrame, storePresetFrame]).2.completed = false := by
  refine ⟨?_, ?_, ?_⟩
  · rfl
  · rfl
  · rfl

/-- C6: a frame the XML parser rejects, or whose first node's name is none of the
three verbs (letter case ignored), is handled without any datagram and the handling
completes; a call of `outputBuffer` whose inbound frames are all of these kinds sends
no datagram and completes. -/
theorem rejected_or_unknown_no_datagram (self : NdiOutput) (mem : Nat)
    (f : NDIlib_metadata_frame_t) (inbound : List NDIlib_metadata_frame_t)
    (hf : rejectedOrUnknown f) (hq : ∀ g ∈ inbound, rejectedOrUnknown g) :
    datagrams (handle self f).events = [] ∧ (handle self f).completed = true ∧
      datagrams (self.outputBuffer mem inbound).2.events = [] ∧
      (self.outputBuffer mem inbound).2.completed = true := by
  obtain ⟨h1, h2⟩ := handle_rejectedOrUnknown self f hf
  refine ⟨h1, h2, ?_, ?_⟩
  · simp only [NdiOutput.outputBuffer, datagrams]
    exact (drain_rejectedOrUnknown _ inbound hq).1
  · simp only [NdiOutput.outputBuffer]
    exact (drain_rejectedOrUnknown _ inbound hq).2

theorem garbageFrame_rejected : rejectedOrUnknown garbageFrame := Or.inl rfl

theorem unknownVerbFrame_unknown : rejectedOrUnknown unknownVerbFrame :=
  Or.inr ⟨{ type := node_type.node_element, name := "UnknownVerb".toList, attributes := [] },
    rfl, by decide, by decide, by decide, by decide⟩

/-- Scenarios S5 and S6 for C6: `<garbage` is rejected, `<UnknownVerb/>` names no
verb, and a call that finds both sends nothing and completes. -/
theorem rejected_or_unknown_no_datagram_witness :
    rejectedOrUnknown garbageFrame ∧
    (∀ g ∈ [garbageFrame, unknownVerbFrame], rejectedOrUnknown g) ∧
    datagrams (handle sampleOutput garbageFrame).events = [] ∧
    (handle sampleOutput garbageFrame).completed = true ∧
    datagrams (sampleOutput.outputBuffer 4096 [garbageFrame, unknownVerbFrame]).2.events = [] ∧
    (sampleOutput.outputBuffer 4096 [garbageFrame, unknownVerbFrame]).2.completed = true :=
  have hq : ∀ g ∈ [garbageFrame, unknownVerbFrame], rejectedOrUnknown g := by
    intro g hg
    simp only [List.mem_cons, List.mem_singleton, List.not_mem_nil, or_false] at hg
    rcases hg with hg | hg
    · rw [hg]; exact garbageFrame_rejected
    · rw [hg]; exact unknownVerbFrame_unknown
  ⟨garbageFrame_rejected, hq,
    rejected_or_unknown_no_datagram sampleOutput 4096 garbageFrame
      [garbageFrame, unknownVerbFrame] garbageFrame_rejected hq⟩

/-! ## The frame descriptor -/

theorem afterCalls_frame (calls : List (Nat × List NDIlib_metadata_frame_t)) :
    ∀ self : NdiOutput,
      (afterCalls self calls).udpsocket = self.udpsocket ∧
      (afterCalls self calls).dst = self.dst ∧
      (afterCalls self calls).pNDI_send = self.pNDI_send ∧
      (afterCalls self calls).NDI_video_frame.xres = self.NDI_video_frame.xres ∧
      (afterCalls self calls).NDI_video_frame.yres = self.NDI_video_frame.yres ∧
      (afterCalls self calls).NDI_video_frame.FourCC = self.NDI_video_frame.FourCC ∧
      (afterCalls self calls).NDI_video_frame.line_stride_in_bytes
        = self.NDI_video_frame.line_stride_in_bytes := by
  induction calls with
  | nil => intro self; exact ⟨rfl, rfl, rfl, rfl, rfl, rfl, rfl⟩
  | cons c cs ih =>
    intro self
    have h := ih (self.outputBuffer c.1 c.2).1
    simp only [afterCalls, List.foldl_cons] at h ⊢
    exact h

theorem create_some (options : VideoOptions) (sender : Nat) (fd : Int) (self : NdiOutput)
    (h : (NdiOutput.create options sender fd).2 = some self) :
    self =
      { udpsocket := fd
        dst := { sin_addr := "127.0.0.1", sin_port := 60504 }
        pNDI_send := sender
        NDI_video_frame :=
          { xres := toInt32 (options.width : Int)
            yres := toInt32 (options.height : Int)
            FourCC := NDIlib_FourCC_video_type_e.NDIlib_FourCC_type_I420
            line_stride_in_bytes := toInt32 (options.width : Int)
            p_data := 0 } } := by
  unfold NdiOutput.create at h
  split at h
  · simp at h
  · split at h
    · simp at h
    · simp only [Option.some.injEq] at h
      exact h.symm

/-- The assignments in the constructor convert: options above `INT_MAX` reach the
`int` members of the frame descriptor wrapped (`4294967295 x 2147483648` is stored as
`-1 x -2147483648`). -/
theorem create_converts_to_int :
    ((NdiOutput.create { width := 4294967295, height := 2147483648 } 7 3).2.map
        (fun self => (self.NDI_video_frame.xres, self.NDI_video_frame.yres,
          self.NDI_video_frame.line_stride_in_bytes)))
      = some (-1, -2147483648, -1) := by
  decide

theorem toInt32_of_int (v : Nat) (h : (v : Int) ≤ INT_MAX) : toInt32 (v : Int) = (v : Int) := by
  unfold INT_MAX at h
  unfold toInt32
  omega

/-- C7: on an adapter constructed for width `w` and height `h` (pixel counts an `int`
holds), every call of `outputBuffer` (after any earlier calls) begins with one
video-frame submission carrying `xres = w`, `yres = h`, FourCC I420, line stride `w`
and the call's pixel address; nothing is polled before it, no other frame is
submitted in the call, and the call changes nothing of the object but the
descriptor's data pointer. -/
theorem one_video_frame_per_call (options : VideoOptions) (sender : Nat) (fd : Int)
    (self0 : NdiOutput) (hc : (NdiOutput.create options sender fd).2 = some self0)
    (hw : (options.width : Int) ≤ INT_MAX) (hh : (options.height : Int) ≤ INT_MAX)
    (calls : List (Nat × List NDIlib_metadata_frame_t)) (mem : Nat)
    (inbound : List NDIlib_metadata_frame_t) :
    ∃ rest : List Event,
      ((afterCalls self0 calls).outputBuffer mem inbound).2.events
        = Event.send_video sender
            { xres := (options.width : Int)
              yres := (options.height : Int)
              FourCC := NDIlib_FourCC_video_type_e.NDIlib_FourCC_type_I420
              line_stride_in_bytes := (options.width : Int)
              p_data := mem } :: rest ∧
      submitted rest = [] ∧
      ((afterCalls self0 calls).outputBuffer mem inbound).1
        = { afterCalls self0 calls with
            NDI_video_frame :=
              { (afterCalls self0 calls).NDI_video_frame with p_data := mem } } := by
  have h0 := create_some options sender fd self0 hc
  rw [toInt32_of_int _ hw, toInt32_of_int _ hh] at h0
  obtain ⟨_, _, h3, h4, h5, h6, h7⟩ := afterCalls_frame calls self0
  rw [h0] at h3 h4 h5 h6 h7
  simp only at h3 h4 h5 h6 h7
  rw [← h0] at h3 h4 h5 h6 h7
  refine ⟨(drain ((afterCalls self0 calls).outputBuffer mem inbound).1 inbound).events, ?_,
    drain_submits_nothing _ inbound, rfl⟩
  simp only [NdiOutput.outputBuffer, h3, h4, h5, h6, h7]

/-- Scenario S1 for C7: an adapter constructed for 1920x1080 submits one
1920x1080 I420 frame of stride 1920 at the call's pixel address. -/
theorem one_video_frame_per_call_witness :
    (NdiOutput.create { width := 1920, height := 1080 } 7 3).2 = some sampleOutput ∧
    ((1920 : Nat) : Int) ≤ INT_MAX ∧ ((1080 : Nat) : Int) ≤ INT_MAX ∧
    ∃ rest : List Event,
      ((afterCalls sampleOutput [(8192, [panTiltFrame])]).outputBuffer 4096 []).2.events
        = Event.send_video 7
            { xres := 1920
              yres := 1080
              FourCC := NDIlib_FourCC_video_type_e.NDIlib_FourCC_type_I420
              line_stride_in_bytes := 1920
              p_data := 4096 } :: rest ∧
      submitted rest = [] ∧
      ((afterCalls sampleOutput [(8192, [panTiltFrame])]).outputBuffer 4096 []).1
        = { afterCalls sampleOutput [(8192, [panTiltFrame])] with
            NDI_video_frame :=
              { (afterCalls sampleOutput [(8192, [panTiltFrame])]).NDI_video_frame with
                p_data := 4096 } } :=
  ⟨rfl, by decide, by decide,
    one_video_frame_per_call { width := 1920, height := 1080 } 7 3 sampleOutput rfl
      (by decide) (by decide) [(8192, [panTiltFrame])] 4096 []⟩

/-! ## Defaults -/

theorem floatAttr_zero_default (n : xml_node) (k : CString) :
    floatAttr n k zerof = toFloat (atof (attrText n k "0.0".toList)) := by
  unfold floatAttr attrText
  split
  · rfl
  · rfl

theorem floatAttr_one_default (n : xml_node) (k : CString) :
    fmin onef (floatAttr n k onef) = fmin onef (toFloat (atof (attrText n k "1.0".toList))) := by
  unfold floatAttr attrText
  split
  · rfl
  · rfl

theorem intAttr_zero_default (n : xml_node) (k : CString) :
    intAttr n k 0 = atoi (attrText n k "0".toList) := by
  unfold intAttr attrText
  split
  · rfl
  · rfl

/-- C8: each attribute a recognized verb reads is taken from the element when the
element carries it and from its listed default otherwise (`0.0` for `pan_speed` and
`tilt_speed`, `0` for `index`, `1.0` for the recall `speed`), before clamping and
formatting; attribute-less elements give `PT:0.000:0.000`, `SP:0` and `RP:0:1.00`. -/
theorem absent_attributes_default (self : NdiOutput) (f : NDIlib_metadata_frame_t)
    (n : xml_node) (hf : f.xml = xml_document.parsed (some n)) :
    (eqIgnoreCase n.name "ntk_ptz_pan_tilt_speed".toList →
      datagrams (handle self f).events =
        ["PT:".toList
          ++ fmt_f 0 3 (fmax negonef (fmin onef
              (toFloat (atof (attrText n "pan_speed".toList "0.0".toList)))))
          ++ ":".toList
          ++ fmt_f 0 3 (fmax negonef (fmin onef
              (toFloat (atof (attrText n "tilt_speed".toList "0.0".toList)))))]) ∧
    (eqIgnoreCase n.name "ntk_ptz_store_preset".toList →
      datagrams (handle self f).events =
        ["SP:".toList
          ++ fmt_d (imax 0 (imin 99 (atoi (attrText n "index".toList "0".toList))))]) ∧
    (eqIgnoreCase n.name "ntk_ptz_recall_preset".toList →
      datagrams (handle self f).events =
        ["RP:".toList
          ++ fmt_d (imax 0 (imin 99 (atoi (attrText n "index".toList "0".toList))))
          ++ ":".toList
          ++ fmt_f 1 2 (fmax zerof (fmin onef
              (toFloat (atof (attrText n "speed".toList "1.0".toList)))))]) ∧
    (eqIgnoreCase n.name "ntk_ptz_pan_tilt_speed".toList →
      n.first_attribute "pan_speed".toList = none →
      n.first_attribute "tilt_speed".toList = none →
      datagrams (handle self f).events = ["PT:0.000:0.000".toList]) ∧
    (eqIgnoreCase n.name "ntk_ptz_store_preset".toList →
      n.first_attribute "index".toList = none →
      datagrams (handle self f).events = ["SP:0".toList]) ∧
    (eqIgnoreCase n.name "ntk_ptz_recall_preset".toList →
      n.first_attribute "index".toList = none →
      n.first_attribute "speed".toList = none →
      datagrams (handle self f).events = ["RP:0:1.00".toList]) := by
  have e1 : eqIgnoreCase n.name "ntk_ptz_pan_tilt_speed".toList →
      datagrams (handle self f).events =
        ["PT:".toList
          ++ fmt_f 0 3 (fmax negonef (fmin onef
              (toFloat (atof (attrText n "pan_speed".toList "0.0".toList)))))
          ++ ":".toList
          ++ fmt_f 0 3 (fmax negonef (fmin onef
              (toFloat (atof (attrText n "tilt_speed".toList "0.0".toList)))))] := by
    intro h
    rw [handle_parsed self f n hf, dispatch_pan_tilt self n h, floatAttr_zero_default,
      floatAttr_zero_default]
    rfl
  have e2 : eqIgnoreCase n.name "ntk_ptz_store_preset".toList →
      datagrams (handle self f).events =
        ["SP:".toList
          ++ fmt_d (imax 0 (imin 99 (atoi (attrText n "index".toList "0".toList))))] := by
    intro h
    rw [handle_parsed self f n hf, dispatch_store_preset self n h, intAttr_zero_default]
    rfl
  have e3 : eqIgnoreCase n.name "ntk_ptz_recall_preset".toList →
      datagrams (handle self f).events =
        ["RP:".toList
          ++ fmt_d (imax 0 (imin 99 (atoi (attrText n "index".toList "0".toList))))
          ++ ":".toList
          ++ fmt_f 1 2 (fmax zerof (fmin onef
              (toFloat (atof (attrText n "speed".toList "1.0".toList)))))] := by
    intro h
    rw [handle_parsed self f n hf, dispatch_recall_preset self n h, intAttr_zero_default,
      floatAttr_one_default]
    rfl
  refine ⟨e1, e2, e3, ?_, ?_, ?_⟩
  · intro h ha hb
    rw [e1 h]
    simp only [attrText, ha, hb]
    rfl
  · intro h ha
    rw [e2 h]
    simp only [attrText, ha]
    rfl
  · intro h ha hb
    rw [e3 h]
    simp only [attrText, ha, hb]
    rfl

/-- Attribute-less elements for C8: `<ntk_ptz_pan_tilt_speed/>` gives
`PT:0.000:0.000`, `<ntk_ptz_store_preset/>` gives `SP:0`, `<ntk_ptz_recall_preset/>`
gives `RP:0:1.00`, and a recall element with `speed="0"` alone gives `RP:0:0.00`. -/
theorem absent_attributes_default_witness :
    datagrams (handle sampleOutput (bareFrame "ntk_ptz_pan_tilt_speed")).events
      = ["PT:0.000:0.000".toList] ∧
    datagrams (handle sampleOutput (bareFrame "ntk_ptz_store_preset")).events
      = ["SP:0".toList] ∧
    datagrams (handle sampleOutput (bareFrame "ntk_ptz_recall_preset")).events
      = ["RP:0:1.00".toList] ∧
    datagrams (handle sampleOutput
        (elementFrame "<ntk_ptz_recall_preset speed=\"0\"/>" "ntk_ptz_recall_preset"
          [("speed", "0")])).events
      = ["RP:0:0.00".toList] :=
  ⟨(absent_attributes_default sampleOutput (bareFrame "ntk_ptz_pan_tilt_speed")
      { type := node_type.node_element, name := "ntk_ptz_pan_tilt_speed".toList,
        attributes := [] } rfl).2.2.2.1 (by decide) rfl rfl,
    (absent_attributes_default sampleOutput (bareFrame "ntk_ptz_store_preset")
      { type := node_type.node_element, name := "ntk_ptz_store_preset".toList,
        attributes := [] } rfl).2.2.2.2.1 (by decide) rfl,
    (absent_attributes_default sampleOutput (bareFrame "ntk_ptz_recall_preset")
      { type := node_type.node_element, name := "ntk_ptz_recall_preset".toList,
        attributes := [] } rfl).2.2.2.2.2 (by decide) rfl rfl,
    (absent_attributes_default sampleOutput
      (elementFrame "<ntk_ptz_recall_preset speed=\"0\"/>" "ntk_ptz_recall_preset"
        [("speed", "0")])
      { type := node_type.node_element, name := "ntk_ptz_recall_preset".toList,
        attributes := [⟨"speed".toList, "0".toList⟩] } rfl).2.2.1 (by decide)⟩

/-! ## Attribute texts that hold no number -/

theorem first_attribute_name (n : xml_node) (k : CString) (a : xml_attribute)
    (h : n.first_attribute k = some a) : a.name = k := by
  unfold xml_node.first_attribute at h
  have := List.find?_some h
  simpa using this

theorem first_attribute_withValue (n : xml_node) (k v k2 : CString) :
    (n.withValue k v).first_attribute k2
      = (n.first_attribute k2).map
          (fun a => if a.name = k then { a with value := v } else a) := by
  unfold xml_node.first_attribute xml_node.withValue
  simp only
  induction n.attributes with
  | nil => rfl
  | cons a as ih =>
    have hn : (if a.name = k then ({ a with value := v } : xml_attribute) else a).name
        = a.name := by
      split <;> rfl
    simp only [List.map_cons, List.find?_cons, hn]
    by_cases h : a.name = k2
    · simp [h]
    · simp [h, ih]

theorem intAttr_withValue (n : xml_node) (k : CString) (a : xml_attribute) (d : Int)
    (ha : n.first_attribute k = some a) (k2 : CString) (hz : k2 = k → atoi a.value = 0) :
    intAttr (n.withValue k "0".toList) k2 d = intAttr n k2 d := by
  unfold intAttr
  rw [first_attribute_withValue]
  cases h : n.first_attribute k2 with
  | none => rfl
  | some b =>
    simp only [Option.map_some']
    by_cases hb : b.name = k
    · have hk : k2 = k := by rw [← first_attribute_name n k2 b h, hb]
      rw [hk, ha] at h
      simp only [Option.some.injEq] at h
      simp only [hb, if_true]
      rw [← h, hz hk]
      rfl
    · simp only [hb, if_false]

theorem floatAttr_withValue (n : xml_node) (k : CString) (a : xml_attribute) (d : Fp)
    (ha : n.first_attribute k = some a) (k2 : CString)
    (hz : k2 = k → toFloat (atof a.value) = zerof) :
    floatAttr (n.withValue k "0".toList) k2 d = floatAttr n k2 d := by
  unfold floatAttr
  rw [first_attribute_withValue]
  cases h : n.first_attribute k2 with
  | none => rfl
  | some b =>
    simp only [Option.map_some']
    by_cases hb : b.name = k
    · have hk : k2 = k := by rw [← first_attribute_name n k2 b h, hb]
      rw [hk, ha] at h
      simp only [Option.some.injEq] at h
      simp only [hb, if_true]
      rw [← h, hz hk]
      rfl
    · simp only [hb, if_false]

theorem dispatch_eq (self : NdiOutput) (n : xml_node) :
    dispatch self n =
      if strcasecmp n.name "ntk_ptz_pan_tilt_speed".toList = 0 then
        [Event.sendto self.udpsocket
          ("PT:".toList
            ++ fmt_f 0 3 (fmax negonef (fmin onef (floatAttr n "pan_speed".toList zerof)))
            ++ ":".toList
            ++ fmt_f 0 3 (fmax negonef (fmin onef (floatAttr n "tilt_speed".toList zerof))))
          self.dst]
      else if strcasecmp n.name "ntk_ptz_store_preset".toList = 0 then
        [Event.sendto self.udpsocket
          ("SP:".toList ++ fmt_d (imax 0 (imin 99 (intAttr n "index".toList 0)))) self.dst]
      else if strcasecmp n.name "ntk_ptz_recall_preset".toList = 0 then
        [Event.sendto self.udpsocket
          ("RP:".toList ++ fmt_d (imax 0 (imin 99 (intAttr n "index".toList 0))) ++ ":".toList
            ++ fmt_f 1 2 (fmax zerof (fmin onef (floatAttr n "speed".toList onef))))
          self.dst]
      else [] := by
  simp only [dispatch, List.take_length, floatAttr, intAttr]

/-- C9, at the claim's own example: `pan_speed="nan"` is not read as zero, the pan
field is `1.000` where `pan_speed="0"` gives `0.000`; and `index="12abc"`, which is
no number either, gives `SP:12` where `index="0"` gives `SP:0`. -/
theorem nan_is_not_read_as_zero :
    datagrams (handle sampleOutput
        (elementFrame "<ntk_ptz_pan_tilt_speed pan_speed=\"nan\"/>" "ntk_ptz_pan_tilt_speed"
          [("pan_speed", "nan")])).events = ["PT:1.000:0.000".toList] ∧
    datagrams (handle sampleOutput
        (elementFrame "<ntk_ptz_pan_tilt_speed pan_speed=\"0\"/>" "ntk_ptz_pan_tilt_speed"
          [("pan_speed", "0")])).events = ["PT:0.000:0.000".toList] ∧
    datagrams (handle sampleOutput
        (elementFrame "<ntk_ptz_store_preset index=\"12abc\"/>" "ntk_ptz_store_preset"
          [("index", "12abc")])).events = ["SP:12".toList] ∧
    datagrams (handle sampleOutput
        (elementFrame "<ntk_ptz_store_preset index=\"0\"/>" "ntk_ptz_store_preset"
          [("index", "0")])).events = ["SP:0".toList] := by
  refine ⟨?_, ?_, ?_, ?_⟩
  · rfl
  · rfl
  · rfl
  · rfl

/-- C9, amended: when an attribute a verb reads is present and its text does not
start with a number (after white space and an optional sign: no decimal digit for
`index`; no decimal digit, no point followed by a digit, no `inf` and no `nan` for
`pan_speed`, `tilt_speed` and `speed`), the value used is zero: the element sends
what the same element with that attribute set to `0` sends. -/
theorem text_without_number_reads_as_zero (self : NdiOutput) (n : xml_node) (k : CString)
    (a : xml_attribute) (ha : n.first_attribute k = some a) (hn : notNumeric k a.value) :
    dispatch self n = dispatch self (n.withValue k "0".toList) := by
  have hI : "index".toList = k → atoi a.value = 0 := by
    intro hk
    rcases hn with ⟨_, h⟩ | ⟨h, _⟩
    · exact atoi_of_no_integer _ h
    · rw [← hk] at h
      exact absurd h (by decide)
  have hF : ∀ k2 : CString,
      (k2 = "pan_speed".toList ∨ k2 = "tilt_speed".toList ∨ k2 = "speed".toList) →
      k2 = k → toFloat (atof a.value) = zerof := by
    intro k2 h2 hk
    rcases hn with ⟨h, _⟩ | ⟨_, h⟩
    · rw [← hk] at h
      rcases h2 with h2 | h2 | h2 <;> (rw [h2] at h; exact absurd h (by decide))
    · rw [atof_of_no_number _ h]
      exact toFloat_zero
  rw [dispatch_eq self n, dispatch_eq self (n.withValue k "0".toList)]
  have hname : (n.withValue k "0".toList).name = n.name := rfl
  rw [hname,
    intAttr_withValue n k a 0 ha "index".toList hI,
    floatAttr_withValue n k a zerof ha "pan_speed".toList (hF _ (Or.inl rfl)),
    floatAttr_withValue n k a zerof ha "tilt_speed".toList (hF _ (Or.inr (Or.inl rfl))),
    floatAttr_withValue n k a onef ha "speed".toList (hF _ (Or.inr (Or.inr rfl)))]

/-- The claim's first two examples for C9: `index="abc"` sends what `index="0"` sends,
`SP:0`, and `pan_speed="abc"` sends what `pan_speed="0"` sends, a pan field `0.000`. -/
theorem text_without_number_reads_as_zero_witness :
    (dispatch sampleOutput
        { type := node_type.node_element, name := "ntk_ptz_store_preset".toList
          attributes := [⟨"index".toList, "abc".toList⟩] }
      = dispatch sampleOutput
        { type := node_type.node_element, name := "ntk_ptz_store_preset".toList
          attributes := [⟨"index".toList, "0".toList⟩] }) ∧
    (dispatch sampleOutput
        { type := node_type.node_element, name := "ntk_ptz_pan_tilt_speed".toList
          attributes := [⟨"pan_speed".toList, "abc".toList⟩] }
      = dispatch sampleOutput
        { type := node_type.node_element, name := "ntk_ptz_pan_tilt_speed".toList
          attributes := [⟨"pan_speed".toList, "0".toList⟩] }) ∧
    datagrams (dispatch sampleOutput
        { type := node_type.node_element, name := "ntk_ptz_store_preset".toList
          attributes := [⟨"index".toList, "abc".toList⟩] }) = ["SP:0".toList] ∧
    datagrams (dispatch sampleOutput
        { type := node_type.node_element, name := "ntk_ptz_pan_tilt_speed".toList
          attributes := [⟨"pan_speed".toList, "abc".toList⟩] }) = ["PT:0.000:0.000".toList] :=
  ⟨text_without_number_reads_as_zero sampleOutput
      { type := node_type.node_element, name := "ntk_ptz_store_preset".toList
        attributes := [⟨"index".toList, "abc".toList⟩] }
      "index".toList ⟨"index".toList, "abc".toList⟩ rfl (Or.inl ⟨rfl, rfl⟩),
    text_without_number_reads_as_zero sampleOutput
      { type := node_type.node_element, name := "ntk_ptz_pan_tilt_speed".toList
        attributes := [⟨"pan_speed".toList, "abc".toList⟩] }
      "pan_speed".toList ⟨"pan_speed".toList, "abc".toList⟩ rfl (Or.inr ⟨Or.inl rfl, rfl⟩),
    rfl, rfl⟩

/-! ## Teardown -/

/-- C10, at the adapter constructed for 1920x1080 with sender handle 7 and socket 3:
the destructor makes one call, closing the socket; it does not destroy the sender,
so it does not first stop the sender and then close the socket. -/
theorem destructor_does_not_stop_sender :
    (NdiOutput.create { width := 1920, height := 1080 } 7 3).2 = some sampleOutput ∧
    NdiOutput.destroy sampleOutput = [Event.close 3] ∧
    NdiOutput.destroy sampleOutput ≠ [Event.send_destroy 7, Event.close 3] ∧
    Event.send_destroy 7 ∉ NdiOutput.destroy sampleOutput := by
  refine ⟨rfl, rfl, ?_, ?_⟩
  · decide
  · decide

/-- C10, amended: destroying a successfully constructed adapter performs exactly one
release action, closing the command socket the constructor opened; the destructor
makes no call that stops (destroys) the transport sender. -/
theorem destructor_closes_socket_only (options : VideoOptions) (sender : Nat) (fd : Int)
    (self : NdiOutput) (hc : (NdiOutput.create options sender fd).2 = some self) :
    self.destroy = [Event.close fd] ∧ ∀ h : Nat, Event.send_destroy h ∉ self.destroy := by
  rw [create_some options sender fd self hc]
  constructor
  · rfl
  · intro h
    simp [NdiOutput.destroy]

/-- The adapter of scenario S1 for C10: constructed with sender handle 7 and socket 3,
its destruction is the single call `close(3)`. -/
theorem destructor_closes_socket_only_witness :
    (NdiOutput.create { width := 1920, height := 1080 } 7 3).2 = some sampleOutput ∧
    sampleOutput.destroy = [Event.close 3] ∧
    ∀ h : Nat, Event.send_destroy h ∉ sampleOutput.destroy :=
  ⟨rfl, destructor_closes_socket_only { width := 1920, height := 1080 } 7 3 sampleOutput rfl⟩

end Raspindi
